import Mathlib

/-!
# Cannon MIPS VM: expected post-states of the syscall fuzz tests

Shallow embedding of

* `cannon/mipsevm/testutil/state.go` (state options, `ExpectedState`,
  `CreateExpectedState`, `Validate`),
* `cannon/mipsevm/tests/fuzz_evm_common_test.go` (the expected post-state each
  syscall fuzz test builds before stepping the VM),
* `op-challenger/game/fault/trace/cannon/state.go` (`parseState`).

Machine integers are natural numbers; every `uint32` / `uint64` operation that
can wrap is written with an explicit reduction modulo `2 ^ 32` / `2 ^ 64`.

The step function of the interpreter is not among these files. Where a
statement is about the step itself (reads and writes on the hint descriptors),
the step is modelled from the specification and checked against the expected
state and the `Validate` call of the corresponding test.
-/

namespace Cannon

/-! ## Machine arithmetic -/

/-- Addition of two `uint32` values. -/
def u32Add (a b : Nat) : Nat := (a + b) % 2 ^ 32

/-- Subtraction of two `uint32` values (wrapping). -/
def u32Sub (a b : Nat) : Nat := (a + 2 ^ 32 - b) % 2 ^ 32

/-- Addition of two `uint64` values. -/
def u64Add (a b : Nat) : Nat := (a + b) % 2 ^ 64

/-- The encoding of the MIPS `syscall` instruction (`syscallInsn`). -/
def syscallInsn : Nat := 0x0000000c

/-- A `common.Hash`, given by its bytes. -/
abbrev Hash := List Nat

/-- A Go byte slice such as `hexutil.Bytes`: `none` is the nil slice, which
`require.Equal` tells apart from an empty one. -/
abbrev Bytes := Option (List Nat)

/-! ## Constants declared outside the embedded files

The packages `program`, `memory` and `exec` are not part of the embedded
sources; the constants the tests read from them are parameters. -/

/-- The constants of `program`, `memory` and `exec` that the tests refer to. -/
structure Consts where
  PROGRAM_BREAK : Nat
  HEAP_START : Nat
  HEAP_END : Nat
  PageSize : Nat
  PageAddrMask : Nat
  SysMmap : Nat
  SysBrk : Nat
  SysExitGroup : Nat
  SysFcntl : Nat
  SysRead : Nat
  SysWrite : Nat
  FdStdin : Nat
  FdStdout : Nat
  FdStderr : Nat
  FdHintRead : Nat
  FdHintWrite : Nat
  FdPreimageRead : Nat
  FdPreimageWrite : Nat
  MipsEBADF : Nat
  MipsEINVAL : Nat
  SysErrorSignal : Nat

/-- The operations of the Merkleized memory (package `memory`) used by the
tests. `SetMemoryRange` can report an error, which the test requires not to
happen. -/
structure MemOps (Mem : Type) where
  SetMemory : Mem → Nat → Nat → Mem
  SetMemoryRange : Mem → Nat → List Nat → Option Mem
  MerkleRoot : Mem → Hash

/-! ## Machine state, as seen through `FPVMState` and `StateMutator` -/

/-- The fields of a VM state reachable through the `FPVMState` getters and the
`StateMutator` setters. -/
structure State (Mem : Type) where
  PreimageKey : Hash
  PreimageOffset : Nat
  PC : Nat
  NextPC : Nat
  HI : Nat
  LO : Nat
  Heap : Nat
  ExitCode : Nat
  Exited : Bool
  Step : Nat
  LastHint : Bytes
  Registers : Fin 32 → Nat
  Memory : Mem

/-- Assignment `state.GetRegistersRef()[i] = v`. -/
def State.setRegister {Mem : Type} (s : State Mem) (i : Fin 32) (v : Nat) : State Mem :=
  { s with Registers := Function.update s.Registers i v }

/-- Call `state.GetMemory().SetMemory(addr, v)`. -/
def State.setMemory {Mem : Type} (ops : MemOps Mem) (s : State Mem) (addr v : Nat) :
    State Mem :=
  { s with Memory := ops.SetMemory s.Memory addr v }

/-- State option `WithHeap`. -/
def WithHeap {Mem : Type} (addr : Nat) (state : State Mem) : State Mem :=
  { state with Heap := addr }

/-- State option `WithPreimageKey`. -/
def WithPreimageKey {Mem : Type} (key : Hash) (state : State Mem) : State Mem :=
  { state with PreimageKey := key }

/-- State option `WithPreimageOffset`. -/
def WithPreimageOffset {Mem : Type} (offset : Nat) (state : State Mem) : State Mem :=
  { state with PreimageOffset := offset }

/-- The struct `ExpectedState`. -/
structure ExpectedState where
  PreimageKey : Hash
  PreimageOffset : Nat
  PC : Nat
  NextPC : Nat
  HI : Nat
  LO : Nat
  Heap : Nat
  ExitCode : Nat
  Exited : Bool
  Step : Nat
  LastHint : Bytes
  Registers : Fin 32 → Nat
  MemoryRoot : Hash

/-- Assignment `expected.Registers[i] = v`. -/
def ExpectedState.setRegister (e : ExpectedState) (i : Fin 32) (v : Nat) : ExpectedState :=
  { e with Registers := Function.update e.Registers i v }

/-- The function `CreateExpectedState`: a snapshot of every field. -/
def CreateExpectedState {Mem : Type} (ops : MemOps Mem) (fromState : State Mem) :
    ExpectedState :=
  { PreimageKey := fromState.PreimageKey
    PreimageOffset := fromState.PreimageOffset
    PC := fromState.PC
    NextPC := fromState.NextPC
    HI := fromState.HI
    LO := fromState.LO
    Heap := fromState.Heap
    ExitCode := fromState.ExitCode
    Exited := fromState.Exited
    Step := fromState.Step
    LastHint := fromState.LastHint
    Registers := fromState.Registers
    MemoryRoot := ops.MerkleRoot fromState.Memory }

/-- The type `StateValidationFlags`. -/
inductive StateValidationFlags where
  | SkipMemoryValidation
  | SkipHintValidation
  | SkipPreimageKeyValidation
  deriving DecidableEq, Repr

/-- Equality of two register files, register by register. -/
def registersEq (r1 r2 : Fin 32 → Nat) : Bool :=
  (List.finRange 32).all fun i => r1 i == r2 i

/-- The method `ExpectedState.Validate`: `true` when every `require.Equal`
of the method passes. -/
def ExpectedState.Validate {Mem : Type} (ops : MemOps Mem) (e : ExpectedState)
    (actualState : State Mem) (flags : List StateValidationFlags) : Bool :=
  (flags.contains StateValidationFlags.SkipPreimageKeyValidation
      || e.PreimageKey == actualState.PreimageKey)
    && e.PreimageOffset == actualState.PreimageOffset
    && e.PC == actualState.PC
    && e.NextPC == actualState.NextPC
    && e.HI == actualState.HI
    && e.LO == actualState.LO
    && e.Heap == actualState.Heap
    && e.ExitCode == actualState.ExitCode
    && e.Exited == actualState.Exited
    && e.Step == actualState.Step
    && (flags.contains StateValidationFlags.SkipHintValidation
      || e.LastHint == actualState.LastHint)
    && registersEq e.Registers actualState.Registers
    && (flags.contains StateValidationFlags.SkipMemoryValidation
      || e.MemoryRoot == ops.MerkleRoot actualState.Memory)

/-! ## The fuzz tests

Each definition takes the state produced by `WithRandomization(seed)` and the
fuzzed arguments, and returns the state the VM is stepped from together with
the expected post-state handed to `Validate`. -/

/-- Test `FuzzStateSyscallBrk`, up to the call of `goVm.Step`. -/
def FuzzStateSyscallBrk {Mem : Type} (ops : MemOps Mem) (c : Consts) (rnd : State Mem) :
    State Mem × ExpectedState :=
  let state := rnd
  let state := state.setRegister 2 c.SysBrk
  let state := state.setMemory ops state.PC syscallInsn
  let expected := CreateExpectedState ops state
  let expected := { expected with Step := u64Add expected.Step 1 }
  let expected := { expected with PC := state.NextPC }
  let expected := { expected with NextPC := u32Add state.NextPC 4 }
  let expected := expected.setRegister 2 c.PROGRAM_BREAK
  let expected := expected.setRegister 7 0
  (state, expected)

/-- Test `FuzzStateSyscallMmap`, up to the call of `goVm.Step`. -/
def FuzzStateSyscallMmap {Mem : Type} (ops : MemOps Mem) (c : Consts) (rnd : State Mem)
    (addr siz heap : Nat) : State Mem × ExpectedState :=
  let state := WithHeap heap rnd
  let state := state.setRegister 2 c.SysMmap
  let state := state.setRegister 4 addr
  let state := state.setRegister 5 siz
  let state := state.setMemory ops state.PC syscallInsn
  let expected := CreateExpectedState ops state
  let expected := { expected with Step := u64Add expected.Step 1 }
  let expected := { expected with PC := state.NextPC }
  let expected := { expected with NextPC := u32Add state.NextPC 4 }
  let expected :=
    if addr = 0 then
      let sizAlign := siz
      let sizAlign :=
        if siz &&& c.PageAddrMask ≠ 0 then
          u32Sub (u32Add siz c.PageSize) (siz &&& c.PageAddrMask)
        else sizAlign
      let newHeap := u32Add heap sizAlign
      if newHeap > c.HEAP_END ∨ newHeap < heap ∨ sizAlign < siz then
        let expected := expected.setRegister 2 c.SysErrorSignal
        expected.setRegister 7 c.MipsEINVAL
      else
        let expected := { expected with Heap := u32Add heap sizAlign }
        let expected := expected.setRegister 2 heap
        expected.setRegister 7 0
    else
      let expected := expected.setRegister 2 addr
      expected.setRegister 7 0
  (state, expected)

/-- Size `S` rounded up to the next multiple of the page size `P`, in unbounded
arithmetic. -/
def alignUp (P S : Nat) : Nat := (S + P - 1) / P * P

/-- Test `FuzzStateSyscallExitGroup`, up to the call of `goVm.Step`. -/
def FuzzStateSyscallExitGroup {Mem : Type} (ops : MemOps Mem) (c : Consts) (rnd : State Mem)
    (exitCode : Nat) : State Mem × ExpectedState :=
  let state := rnd
  let state := state.setRegister 2 c.SysExitGroup
  let state := state.setRegister 4 exitCode
  let state := state.setMemory ops state.PC syscallInsn
  let expected := CreateExpectedState ops state
  let expected := { expected with Step := u64Add expected.Step 1 }
  let expected := { expected with Exited := true }
  let expected := { expected with ExitCode := exitCode }
  (state, expected)

/-- Test `FuzzStateSyscallFcntl`, up to the call of `goVm.Step`. -/
def FuzzStateSyscallFcntl {Mem : Type} (ops : MemOps Mem) (c : Consts) (rnd : State Mem)
    (fd cmd : Nat) : State Mem × ExpectedState :=
  let state := rnd
  let state := state.setRegister 2 c.SysFcntl
  let state := state.setRegister 4 fd
  let state := state.setRegister 5 cmd
  let state := state.setMemory ops state.PC syscallInsn
  let expected := CreateExpectedState ops state
  let expected := { expected with Step := u64Add expected.Step 1 }
  let expected := { expected with PC := state.NextPC }
  let expected := { expected with NextPC := u32Add state.NextPC 4 }
  let expected :=
    if cmd = 3 then
      if fd = c.FdStdin ∨ fd = c.FdPreimageRead ∨ fd = c.FdHintRead then
        let expected := expected.setRegister 2 0
        expected.setRegister 7 0
      else if fd = c.FdStdout ∨ fd = c.FdStderr ∨ fd = c.FdPreimageWrite
          ∨ fd = c.FdHintWrite then
        let expected := expected.setRegister 2 1
        expected.setRegister 7 0
      else
        let expected := expected.setRegister 2 0xFFFFFFFF
        expected.setRegister 7 c.MipsEBADF
    else
      let expected := expected.setRegister 2 0xFFFFFFFF
      expected.setRegister 7 c.MipsEINVAL
  (state, expected)

/-- Test `FuzzStateHintRead`, up to the call of `goVm.Step`. The key
`preimageKey` is the Keccak key of the test's preimage data. -/
def FuzzStateHintRead {Mem : Type} (ops : MemOps Mem) (c : Consts) (preimageKey : Hash)
    (rnd : State Mem) (addr count : Nat) : State Mem × ExpectedState :=
  let state := WithPreimageKey preimageKey rnd
  let state := state.setRegister 2 c.SysRead
  let state := state.setRegister 4 c.FdHintRead
  let state := state.setRegister 5 addr
  let state := state.setRegister 6 count
  let state := state.setMemory ops state.PC syscallInsn
  let expected := CreateExpectedState ops state
  let expected := { expected with Step := u64Add expected.Step 1 }
  let expected := { expected with PC := state.NextPC }
  let expected := { expected with NextPC := u32Add state.NextPC 4 }
  let expected := expected.setRegister 2 count
  let expected := expected.setRegister 7 0
  (state, expected)

/-- The bytes of the test preimage, the ASCII string hello world. -/
def helloWorld : List Nat := [104, 101, 108, 108, 111, 32, 119, 111, 114, 108, 100]

/-- The expected transfer length computed by `FuzzStatePreimageRead` from the
length of the preimage value, the target address, the requested count and the
preimage offset. -/
def expectedWriteLen (valueLen addr count preimageOffset : Nat) : Nat :=
  let alignment := addr &&& 3
  let writeLen := u32Sub 4 alignment
  let writeLen := if count < writeLen then count else writeLen
  let preimageDataLen := (valueLen + 8) % 2 ^ 32
  if u32Add preimageOffset writeLen > preimageDataLen then
    u32Sub preimageDataLen preimageOffset
  else writeLen

/-- Test `FuzzStatePreimageRead`, up to the call of `goVm.Step`; `none` when the
test is skipped. The test fixes `preimageValue` to `helloWorld`. -/
def FuzzStatePreimageRead {Mem : Type} (ops : MemOps Mem) (c : Consts)
    (preimageValue : List Nat) (preimageKey : Hash) (rnd : State Mem)
    (addr count preimageOffset : Nat) : Option (State Mem × ExpectedState) :=
  if preimageOffset ≥ preimageValue.length % 2 ^ 32 then none
  else
    let state := WithPreimageOffset preimageOffset (WithPreimageKey preimageKey rnd)
    let state := state.setRegister 2 c.SysRead
    let state := state.setRegister 4 c.FdPreimageRead
    let state := state.setRegister 5 addr
    let state := state.setRegister 6 count
    let state := state.setMemory ops state.PC syscallInsn
    let writeLen := expectedWriteLen preimageValue.length addr count preimageOffset
    let expected := CreateExpectedState ops state
    let expected := { expected with Step := u64Add expected.Step 1 }
    let expected := { expected with PC := state.NextPC }
    let expected := { expected with NextPC := u32Add state.NextPC 4 }
    let expected := expected.setRegister 2 writeLen
    let expected := expected.setRegister 7 0
    let expected :=
      { expected with PreimageOffset := u32Add expected.PreimageOffset writeLen }
    some (state, expected)

/-- Test `FuzzStateHintWrite`, up to the call of `goVm.Step`; `randBytes` is the
result of `RandomBytes(t, randSeed, count)`, and the result is `none` when
`SetMemoryRange` reports an error. -/
def FuzzStateHintWrite {Mem : Type} (ops : MemOps Mem) (c : Consts) (preimageKey : Hash)
    (rnd : State Mem) (addr count : Nat) (randBytes : List Nat) :
    Option (State Mem × ExpectedState) :=
  let state := WithPreimageKey preimageKey rnd
  let state := state.setRegister 2 c.SysWrite
  let state := state.setRegister 4 c.FdHintWrite
  let state := state.setRegister 5 addr
  let state := state.setRegister 6 count
  match ops.SetMemoryRange state.Memory addr randBytes with
  | none => none
  | some mem =>
    let state := { state with Memory := mem }
    let state := state.setMemory ops state.PC syscallInsn
    let expected := CreateExpectedState ops state
    let expected := { expected with Step := u64Add expected.Step 1 }
    let expected := { expected with PC := state.NextPC }
    let expected := { expected with NextPC := u32Add state.NextPC 4 }
    let expected := expected.setRegister 2 count
    let expected := expected.setRegister 7 0
    some (state, expected)

/-- The flags `FuzzStateHintWrite` passes to `Validate`. -/
def hintWriteFlags : List StateValidationFlags := [StateValidationFlags.SkipHintValidation]

/-- The body of test `FuzzStatePreimageWrite`, up to the call of `goVm.Step`,
with the preimage offset handed to `WithPreimageOffset` as the parameter
`startOffset`. -/
def FuzzStatePreimageWriteFrom {Mem : Type} (ops : MemOps Mem) (c : Consts)
    (preimageKey : Hash) (startOffset : Nat) (rnd : State Mem) (addr count : Nat) :
    State Mem × ExpectedState :=
  let state := WithPreimageOffset startOffset (WithPreimageKey preimageKey rnd)
  let state := state.setRegister 2 c.SysWrite
  let state := state.setRegister 4 c.FdPreimageWrite
  let state := state.setRegister 5 addr
  let state := state.setRegister 6 count
  let state := state.setMemory ops state.PC syscallInsn
  let sz := u32Sub 4 (addr &&& 0x3)
  let count := if sz < count then sz else count
  let expected := CreateExpectedState ops state
  let expected := { expected with Step := u64Add expected.Step 1 }
  let expected := { expected with PC := state.NextPC }
  let expected := { expected with NextPC := u32Add state.NextPC 4 }
  let expected := { expected with PreimageOffset := 0 }
  let expected := expected.setRegister 2 count
  let expected := expected.setRegister 7 0
  (state, expected)

/-- Test `FuzzStatePreimageWrite`, up to the call of `goVm.Step`: the body above
with `WithPreimageOffset(128)`. -/
def FuzzStatePreimageWrite {Mem : Type} (ops : MemOps Mem) (c : Consts) (preimageKey : Hash)
    (rnd : State Mem) (addr count : Nat) : State Mem × ExpectedState :=
  FuzzStatePreimageWriteFrom ops c preimageKey 128 rnd addr count

/-! ## The interpreter step, for the hint descriptors

The step function of the interpreter (package `exec`) is not among the embedded
files; the two handlers the hint tests exercise are modelled from the
specification. -/

/-- The read operations of the Merkleized memory (package `memory`): the word at
an address, and the `n` bytes from an address on. -/
structure MemRead (Mem : Type) where
  GetMemory : Mem → Nat → Nat
  ReadMemoryRange : Mem → Nat → Nat → List Nat

/-- Modelled from the spec: the effect of a completed syscall trap on counters
and registers (sections 4.2 and 4.3), missing because the step function of the
interpreter is not among the embedded files. The step counter is incremented,
pc becomes the old nextPc, nextPc the old nextPc + 4, the return value goes to
register 2 and the error code to register 7. -/
def syscallReturn {Mem : Type} (s : State Mem) (v0 v1 : Nat) : State Mem :=
  { s with
    Step := u64Add s.Step 1
    PC := s.NextPC
    NextPC := u32Add s.NextPC 4
    Registers := Function.update (Function.update s.Registers 2 v0) 7 v1 }

/-- Modelled from the spec: one step of the interpreter (`goVm.Step`), which is
missing from the embedded files, for a syscall trap that reads from the
hint-read descriptor or writes to the hint-write descriptor (sections 3, 4.3,
4.4, 4.5 and 8). An exited state is terminal and is returned as it is. The
instruction word is fetched at pc; register 2 holds the syscall number and
registers 4 to 6 the arguments. A read from the hint-read descriptor returns the
whole requested count with error 0 and touches nothing else. A write to the
hint-write descriptor copies the written bytes out of memory, records them as
lastHint, and returns the whole requested count with error 0, leaving memory and
the preimage cursor alone. The result is `none` for every instruction, syscall
and descriptor outside this model. -/
def goVmStep {Mem : Type} (rd : MemRead Mem) (c : Consts) (s : State Mem) :
    Option (State Mem) :=
  if s.Exited = true then some s
  else if rd.GetMemory s.Memory s.PC ≠ syscallInsn then none
  else
    let syscallNum := s.Registers 2
    let a0 := s.Registers 4
    let a1 := s.Registers 5
    let a2 := s.Registers 6
    if syscallNum = c.SysRead then
      if a0 = c.FdHintRead then some (syscallReturn s a2 0)
      else none
    else if syscallNum = c.SysWrite then
      if a0 = c.FdHintWrite then
        let hintData := rd.ReadMemoryRange s.Memory a1 a2
        some (syscallReturn { s with LastHint := some hintData } a2 0)
      else none
    else none

/-! ## Checkpoint parsing (`op-challenger/game/fault/trace/cannon/state.go`) -/

/-- A Go `error`: its message, and for an error built with the `%w` verb the
error it wraps. -/
inductive GoError where
  | leaf (msg : String)
  | wrap (msg : String) (inner : GoError)
  deriving DecidableEq, Repr

/-- The method `Error()`: the message of an error. -/
def GoError.Error : GoError → String
  | GoError.leaf msg => msg
  | GoError.wrap msg _ => msg

/-- The method `Unwrap()`: the wrapped error, if any. -/
def GoError.Unwrap : GoError → Option GoError
  | GoError.leaf _ => none
  | GoError.wrap _ inner => some inner

/-- Whether the text `part` occurs in the message `msg`. -/
def containsText (msg part : String) : Bool :=
  msg.data.tails.any fun t => part.data.isPrefixOf t

/-- Function `parseStateFromReader`: the pair (state, error) it returns, for a
reader delivering `content`. The JSON decoder is the parameter `Decode`. -/
def parseStateFromReader {St : Type} (Decode : List Nat → Except GoError St)
    (content : List Nat) : Option St × Option GoError :=
  match Decode content with
  | Except.error err =>
    (none, some (GoError.wrap ("invalid mipsevm state: " ++ err.Error) err))
  | Except.ok state => (some state, none)

/-- Function `parseState`: the pair (state, error) it returns. Opening and
decompressing the file is the parameter `OpenDecompressed`. -/
def parseState {St : Type} (OpenDecompressed : String → Except GoError (List Nat))
    (Decode : List Nat → Except GoError St) (path : String) :
    Option St × Option GoError :=
  match OpenDecompressed path with
  | Except.error err =>
    (none, some (GoError.wrap
      ("cannot open state file (" ++ path ++ "): " ++ err.Error) err))
  | Except.ok file => parseStateFromReader Decode file

/-- A sample file system: one readable file, holding a truncated document. -/
def sampleOpen (path : String) : Except GoError (List Nat) :=
  if path = "/data/state.json" then Except.ok [123, 34, 112, 99]
  else Except.error (GoError.leaf "no such file or directory")

/-- A sample decoder: accepts a document made of one digit, and reports an
unexpected end of input otherwise. -/
def sampleDecode (content : List Nat) : Except GoError Nat :=
  match content with
  | [d] => if 48 ≤ d ∧ d ≤ 57 then Except.ok (d - 48)
      else Except.error (GoError.leaf "invalid character")
  | _ => Except.error (GoError.leaf "unexpected EOF")

/-! ## Randomized pre-states (`RandomizeState`) -/

/-- The methods of `*rand.Rand` (package `math/rand`) used by the test
utilities. `New seed` stands for `rand.New(rand.NewSource(seed))`; every draw
returns its value together with the advanced generator. -/
structure RandOps (R : Type) where
  New : Int → R
  Uint32 : R → Nat × R
  Uint64 : R → Nat × R
  Intn : R → Nat → Nat × R
  Read : R → Nat → List Nat × R

/-- Function `randHash`: 32 random bytes. -/
def randHash {R : Type} (rops : RandOps R) (r : R) : Hash × R :=
  rops.Read r 32

/-- Function `randHint`: between 0 and 9 random bytes. -/
def randHint {R : Type} (rops : RandOps R) (r : R) : List Nat × R :=
  let (count, r) := rops.Intn r 10
  rops.Read r count

/-- The loop of `randRegisters`: `n` successive `Uint32` draws. -/
def randRegistersLoop {R : Type} (rops : RandOps R) : Nat → R → List Nat × R
  | 0, r => ([], r)
  | n + 1, r =>
    let (v, r) := rops.Uint32 r
    let (vs, r) := randRegistersLoop rops n r
    (v :: vs, r)

/-- Function `randRegisters`: 32 random registers, drawn in index order. -/
def randRegisters {R : Type} (rops : RandOps R) (r : R) : (Fin 32 → Nat) × R :=
  let (vs, r) := randRegistersLoop rops 32 r
  (fun i => vs.getD i.val 0, r)

/-- Function `RandomizeState`, applied to the state behind the mutator. -/
def RandomizeState {R Mem : Type} (rops : RandOps R) (seed : Int) (state : State Mem) :
    State Mem :=
  let r := rops.New seed
  let (v, r) := rops.Uint32 r
  let pc := v &&& 0xFFFFFFFC
  let pc := if pc ≥ 0xFFFFFFFC then 0xFFFFFFFC - 8 else pc
  let (step, r) := rops.Uint64 r
  let step := if step = 2 ^ 64 - 1 then step - 1 else step
  let (key, r) := randHash rops r
  let state := { state with PreimageKey := key }
  let (offset, r) := rops.Uint32 r
  let state := { state with PreimageOffset := offset }
  let state := { state with PC := pc }
  let state := { state with NextPC := u32Add pc 4 }
  let (hi, r) := rops.Uint32 r
  let state := { state with HI := hi }
  let (lo, r) := rops.Uint32 r
  let state := { state with LO := lo }
  let (heap, r) := rops.Uint32 r
  let state := { state with Heap := heap }
  let state := { state with Step := step }
  let (hint, r) := randHint rops r
  let state := { state with LastHint := some hint }
  let (registers, _) := randRegisters rops r
  { state with Registers := registers }

/-- State option `WithRandomization`. -/
def WithRandomization {R Mem : Type} (rops : RandOps R) (seed : Int) (state : State Mem) :
    State Mem :=
  RandomizeState rops seed state

/-- A sample random source: the generator is a counter started at the seed, and
every draw returns the counter reduced to the range of the draw. -/
def counterRand : RandOps Nat where
  New := fun seed => seed.toNat
  Uint32 := fun r => (r % 2 ^ 32, r + 1)
  Uint64 := fun r => (r % 2 ^ 64, r + 1)
  Intn := fun r n => (r % n, r + 1)
  Read := fun r n => ((List.range n).map fun i => (r + i) % 256, r + n)

/-! ## Concrete data used to instantiate the statements -/

/-- A toy memory: the list of writes, most recent first. The root is a
placeholder function of the writes. -/
def toyOps : MemOps (List (Nat × Nat)) where
  SetMemory := fun m a v => (a, v) :: m
  SetMemoryRange := fun m a bs => some ((a, bs.length) :: m)
  MerkleRoot := fun m => m.map fun p => p.1 + p.2

/-- A byte-addressed sample memory: an association list from addresses to bytes,
most recent write first. A word is stored big-endian; the root is a placeholder
function of the writes. -/
def byteOps : MemOps (List (Nat × Nat)) where
  SetMemory := fun m a v =>
    (a, v / 2 ^ 24 % 256) :: (a + 1, v / 2 ^ 16 % 256) :: (a + 2, v / 2 ^ 8 % 256)
      :: (a + 3, v % 256) :: m
  SetMemoryRange := fun m a bs =>
    some (((List.range bs.length).zip bs).map (fun p => (a + p.1, p.2)) ++ m)
  MerkleRoot := fun m => m.map fun p => p.1 + p.2

/-- The read operations of the byte-addressed sample memory; an address never
written reads as zero. -/
def byteRead : MemRead (List (Nat × Nat)) where
  GetMemory := fun m a =>
    (m.lookup a).getD 0 * 2 ^ 24 + (m.lookup (a + 1)).getD 0 * 2 ^ 16
      + (m.lookup (a + 2)).getD 0 * 2 ^ 8 + (m.lookup (a + 3)).getD 0
  ReadMemoryRange := fun m a n => (List.range n).map fun i => (m.lookup (a + i)).getD 0

/-- A sample assignment of the constants. -/
def sampleConsts : Consts where
  PROGRAM_BREAK := 0x40000000
  HEAP_START := 0x05000000
  HEAP_END := 0x60000000
  PageSize := 4096
  PageAddrMask := 4095
  SysMmap := 4090
  SysBrk := 4045
  SysExitGroup := 4246
  SysFcntl := 4055
  SysRead := 4003
  SysWrite := 4004
  FdStdin := 0
  FdStdout := 1
  FdStderr := 2
  FdHintRead := 3
  FdHintWrite := 4
  FdPreimageRead := 5
  FdPreimageWrite := 6
  MipsEBADF := 0x9
  MipsEINVAL := 0x16
  SysErrorSignal := 0xFFFFFFFF

/-- A sample pre-state. -/
def sampleState : State (List (Nat × Nat)) where
  PreimageKey := [2, 7]
  PreimageOffset := 5
  PC := 0x1000
  NextPC := 0x1004
  HI := 11
  LO := 12
  Heap := 0x05000000
  ExitCode := 0
  Exited := false
  Step := 41
  LastHint := some [1, 2, 3]
  Registers := fun i => i.val + 100
  Memory := []

/-! ## Arithmetic lemmas -/

theorem alignUp_eq (P S : Nat) (hP : 0 < P) :
    alignUp P S = if S % P = 0 then S else S + P - S % P := by
  unfold alignUp
  have hdm := Nat.div_add_mod S P
  have hr := Nat.mod_lt S hP
  split
  · next h =>
    have h1 : S + P - 1 = (P - 1) + P * (S / P) := by omega
    rw [h1, Nat.add_mul_div_left _ _ hP, Nat.div_eq_of_lt (by omega), Nat.zero_add,
      Nat.mul_comm]
    omega
  · next h =>
    have h1 : S + P - 1 = (S % P - 1) + P * (S / P + 1) := by
      rw [Nat.mul_add, Nat.mul_one]; omega
    rw [h1, Nat.add_mul_div_left _ _ hP, Nat.div_eq_of_lt (by omega), Nat.zero_add,
      Nat.mul_comm, Nat.mul_add, Nat.mul_one]
    omega

theorem alignUp_ge (P S : Nat) (hP : 0 < P) : S ≤ alignUp P S := by
  rw [alignUp_eq P S hP]
  have hr := Nat.mod_lt S hP
  split <;> omega

theorem alignUp_dvd (P S : Nat) : P ∣ alignUp P S :=
  Dvd.intro_left _ rfl

theorem alignUp_least (P S m : Nat) (hP : 0 < P) (hd : P ∣ m) (hm : S ≤ m) :
    alignUp P S ≤ m := by
  obtain ⟨t, rfl⟩ := hd
  unfold alignUp
  rw [Nat.mul_comm P t]
  apply Nat.mul_le_mul_right
  have h1 : (S + P - 1) / P < t + 1 := by
    rw [Nat.div_lt_iff_lt_mul hP, Nat.add_mul, Nat.one_mul, Nat.mul_comm t P]
    omega
  omega

/-- The 32-bit page rounding and bound check of `FuzzStateSyscallMmap` decide
`HEAP_END < H + alignUp P S`, and without failure the 32-bit sum is the exact one. -/
theorem mmap_check (P k S H E : Nat) (hP : P = 2 ^ k) (hk : k < 32)
    (hS : S < 2 ^ 32) (hH : H < 2 ^ 32) (hE : E < 2 ^ 32) :
    ((E < u32Add H (if S % P ≠ 0 then u32Sub (u32Add S P) (S % P) else S)
        ∨ u32Add H (if S % P ≠ 0 then u32Sub (u32Add S P) (S % P) else S) < H
        ∨ (if S % P ≠ 0 then u32Sub (u32Add S P) (S % P) else S) < S)
      ↔ E < H + alignUp P S)
    ∧ (H + alignUp P S ≤ E →
        u32Add H (if S % P ≠ 0 then u32Sub (u32Add S P) (S % P) else S)
          = H + alignUp P S) := by
  have hpos : 0 < P := by rw [hP]; exact Nat.pow_pos (by decide)
  have hP31 : P ≤ 2 ^ 31 := by
    rw [hP]; exact Nat.pow_le_pow_right (by decide) (by omega)
  have hr := Nat.mod_lt S hpos
  have hrS := Nat.mod_le S P
  rw [alignUp_eq P S hpos]
  unfold u32Add u32Sub
  generalize S % P = r at *
  by_cases h0 : r = 0
  · simp only [h0, ne_eq, not_true_eq_false, if_false, if_true]
    omega
  · simp only [h0, ne_eq, not_false_eq_true, if_true, if_false]
    omega

/-! ## Anonymous mapping -/

/-- Behaviour of the zero-address branch of `FuzzStateSyscallMmap` for one heap
value and one size. -/
theorem mmap_zero_addr_cases {Mem : Type} (ops : MemOps Mem) (c : Consts) (k : Nat)
    (hk : k < 32) (hPage : c.PageSize = 2 ^ k) (hMask : c.PageAddrMask = 2 ^ k - 1)
    (hEnd : c.HEAP_END < 2 ^ 32) (rnd : State Mem) (H S : Nat)
    (hH : H < 2 ^ 32) (hS : S < 2 ^ 32) :
    (c.HEAP_END < H + alignUp c.PageSize S →
        (FuzzStateSyscallMmap ops c rnd 0 S H).2.Registers 2 = c.SysErrorSignal
        ∧ (FuzzStateSyscallMmap ops c rnd 0 S H).2.Registers 7 = c.MipsEINVAL
        ∧ (FuzzStateSyscallMmap ops c rnd 0 S H).2.Heap = H)
    ∧ (H + alignUp c.PageSize S ≤ c.HEAP_END →
        (FuzzStateSyscallMmap ops c rnd 0 S H).2.Heap = H + alignUp c.PageSize S
        ∧ (FuzzStateSyscallMmap ops c rnd 0 S H).2.Registers 2 = H
        ∧ (FuzzStateSyscallMmap ops c rnd 0 S H).2.Registers 7 = 0) := by
  have hand : S &&& c.PageAddrMask = S % c.PageSize := by
    rw [hMask, hPage, Nat.and_pow_two_sub_one_eq_mod]
  obtain ⟨hiff, hsum⟩ := mmap_check c.PageSize k S H c.HEAP_END hPage hk hS hH hEnd
  constructor
  · intro hf
    have hc := hiff.mpr hf
    simp only [FuzzStateSyscallMmap, hand, if_true]
    rw [if_pos hc]
    simp [ExpectedState.setRegister, CreateExpectedState, State.setRegister,
      State.setMemory, WithHeap]
  · intro hf
    have hc := (not_congr hiff).mpr (Nat.not_lt.mpr hf)
    simp only [FuzzStateSyscallMmap, hand, if_true]
    rw [if_neg hc]
    have hs := hsum hf
    simp only [ne_eq, ite_not] at hs
    simp [ExpectedState.setRegister, CreateExpectedState, State.setRegister,
      State.setMemory, WithHeap, hs]

/-- C1. Anonymous mapping with requested address 0. With a page size `2 ^ k`
(`k < 32`), mask `2 ^ k - 1` and `HEAP_END` a `uint32`, `alignUp PageSize S`
is the least multiple of the page size that is at least `S`, and for every
32-bit heap `H` and size `S` the expected post-state of `FuzzStateSyscallMmap`
has register 2 = 0xFFFFFFFF, register 7 = EINVAL and heap = `H` exactly when
`H + alignUp PageSize S > HEAP_END` in unbounded arithmetic (so in particular
whenever the exact sum reaches `2 ^ 32`); otherwise heap = `H + alignUp PageSize S`,
register 2 = `H` and register 7 = 0. The bound is inclusive: a sum equal to
`HEAP_END` succeeds, from `H = HEAP_END - PageSize` one page succeeds and one
page plus one byte fails. -/
theorem mmap_zero_addr_expected {Mem : Type} (ops : MemOps Mem) (c : Consts) (k : Nat)
    (hk : k < 32) (hPage : c.PageSize = 2 ^ k) (hMask : c.PageAddrMask = 2 ^ k - 1)
    (hEnd : c.HEAP_END < 2 ^ 32) (hPageEnd : c.PageSize ≤ c.HEAP_END)
    (hSig : c.SysErrorSignal = 0xFFFFFFFF) (hErr : c.MipsEINVAL ≠ 0) :
    (∀ S m : Nat, S ≤ alignUp c.PageSize S ∧ c.PageSize ∣ alignUp c.PageSize S
        ∧ (c.PageSize ∣ m → S ≤ m → alignUp c.PageSize S ≤ m))
    ∧ (∀ (rnd : State Mem) (H S : Nat), H < 2 ^ 32 → S < 2 ^ 32 →
        (FuzzStateSyscallMmap ops c rnd 0 S H).1.Heap = H
        ∧ (c.HEAP_END < H + alignUp c.PageSize S →
            (FuzzStateSyscallMmap ops c rnd 0 S H).2.Registers 2 = 0xFFFFFFFF
            ∧ (FuzzStateSyscallMmap ops c rnd 0 S H).2.Registers 7 = c.MipsEINVAL
            ∧ (FuzzStateSyscallMmap ops c rnd 0 S H).2.Heap = H)
        ∧ (2 ^ 32 ≤ H + alignUp c.PageSize S →
            (FuzzStateSyscallMmap ops c rnd 0 S H).2.Registers 2 = 0xFFFFFFFF
            ∧ (FuzzStateSyscallMmap ops c rnd 0 S H).2.Registers 7 = c.MipsEINVAL
            ∧ (FuzzStateSyscallMmap ops c rnd 0 S H).2.Heap = H)
        ∧ (H + alignUp c.PageSize S ≤ c.HEAP_END →
            (FuzzStateSyscallMmap ops c rnd 0 S H).2.Heap = H + alignUp c.PageSize S
            ∧ (FuzzStateSyscallMmap ops c rnd 0 S H).2.Registers 2 = H
            ∧ (FuzzStateSyscallMmap ops c rnd 0 S H).2.Registers 7 = 0)
        ∧ ((FuzzStateSyscallMmap ops c rnd 0 S H).2.Registers 7 = c.MipsEINVAL
            ↔ c.HEAP_END < H + alignUp c.PageSize S))
    ∧ (∀ rnd : State Mem,
        (FuzzStateSyscallMmap ops c rnd 0 c.PageSize (c.HEAP_END - c.PageSize)).2.Heap
          = c.HEAP_END
        ∧ (FuzzStateSyscallMmap ops c rnd 0 c.PageSize
            (c.HEAP_END - c.PageSize)).2.Registers 2 = c.HEAP_END - c.PageSize
        ∧ (FuzzStateSyscallMmap ops c rnd 0 c.PageSize
            (c.HEAP_END - c.PageSize)).2.Registers 7 = 0)
    ∧ (∀ rnd : State Mem,
        (FuzzStateSyscallMmap ops c rnd 0 (c.PageSize + 1)
            (c.HEAP_END - c.PageSize)).2.Registers 2 = 0xFFFFFFFF
        ∧ (FuzzStateSyscallMmap ops c rnd 0 (c.PageSize + 1)
            (c.HEAP_END - c.PageSize)).2.Registers 7 = c.MipsEINVAL
        ∧ (FuzzStateSyscallMmap ops c rnd 0 (c.PageSize + 1)
            (c.HEAP_END - c.PageSize)).2.Heap = c.HEAP_END - c.PageSize) := by
  have hpos : 0 < c.PageSize := by rw [hPage]; exact Nat.pow_pos (by decide)
  have hP31 : c.PageSize ≤ 2 ^ 31 := by
    rw [hPage]; exact Nat.pow_le_pow_right (by decide) (by omega)
  have hcases := mmap_zero_addr_cases ops c k hk hPage hMask hEnd
  rw [hSig] at hcases
  refine ⟨?_, ?_, ?_, ?_⟩
  · intro S m
    exact ⟨alignUp_ge _ _ hpos, alignUp_dvd _ _, alignUp_least _ _ _ hpos⟩
  · intro rnd H S hH hS
    obtain ⟨hfail, hok⟩ := hcases rnd H S hH hS
    refine ⟨rfl, hfail, fun h => hfail (by omega), hok, ?_⟩
    constructor
    · intro h7
      by_contra hn
      have := (hok (Nat.not_lt.mp hn)).2.2
      exact hErr (by rw [← h7, this])
    · intro h
      exact (hfail h).2.1
  · intro rnd
    obtain ⟨_, hok⟩ := hcases rnd (c.HEAP_END - c.PageSize) c.PageSize (by omega) (by omega)
    have ha : alignUp c.PageSize c.PageSize = c.PageSize := by
      rw [alignUp_eq _ _ hpos, if_pos (Nat.mod_self _)]
    rw [ha] at hok
    have h := hok (by omega)
    refine ⟨?_, h.2.1, h.2.2⟩
    rw [h.1]; omega
  · intro rnd
    obtain ⟨hfail, _⟩ :=
      hcases rnd (c.HEAP_END - c.PageSize) (c.PageSize + 1) (by omega) (by omega)
    have ha := alignUp_ge c.PageSize (c.PageSize + 1) hpos
    exact hfail (by omega)

/-- Instance of `mmap_zero_addr_expected`: with page size 4096 and
`HEAP_END = 0x60000000`, one page from `HEAP_END - 4096` lands on `HEAP_END`. -/
theorem mmap_zero_addr_expected_witness :
    (12 < 32 ∧ sampleConsts.PageSize = 2 ^ 12 ∧ sampleConsts.HEAP_END < 2 ^ 32)
    ∧ (FuzzStateSyscallMmap toyOps sampleConsts sampleState 0 4096 0x5FFFF000).2.Heap
        = 0x60000000 :=
  ⟨⟨by decide, rfl, by decide⟩,
    ((mmap_zero_addr_expected toyOps sampleConsts 12 (by decide) rfl rfl (by decide)
      (by decide) rfl (by decide)).2.2.1 sampleState).1⟩

/-- C9. Anonymous mapping with a non-zero requested address: for every
`addr ≠ 0` and every size and heap value, with no condition on the page rounding
or on the sum with the heap, the expected post-state of `FuzzStateSyscallMmap`
has register 2 = `addr`, register 7 = 0 and the heap of the pre-state, which is
the fuzzed heap value. -/
theorem mmap_nonzero_addr_expected {Mem : Type} (ops : MemOps Mem) (c : Consts)
    (rnd : State Mem) (addr siz heap : Nat) (haddr : addr ≠ 0) :
    (FuzzStateSyscallMmap ops c rnd addr siz heap).2.Registers 2 = addr
    ∧ (FuzzStateSyscallMmap ops c rnd addr siz heap).2.Registers 7 = 0
    ∧ (FuzzStateSyscallMmap ops c rnd addr siz heap).2.Heap = heap
    ∧ (FuzzStateSyscallMmap ops c rnd addr siz heap).1.Heap = heap := by
  simp [FuzzStateSyscallMmap, haddr, ExpectedState.setRegister, CreateExpectedState,
    State.setRegister, State.setMemory, WithHeap]

/-- Instance of `mmap_nonzero_addr_expected`: a size whose page rounding wraps
32 bits, from a heap above `HEAP_END`. -/
theorem mmap_nonzero_addr_expected_witness :
    (0x1000 : Nat) ≠ 0
    ∧ (FuzzStateSyscallMmap toyOps sampleConsts sampleState 0x1000 0xFFFFFFFF
        0xFFFFF000).2.Registers 2 = 0x1000
    ∧ (FuzzStateSyscallMmap toyOps sampleConsts sampleState 0x1000 0xFFFFFFFF
        0xFFFFF000).2.Heap = 0xFFFFF000 :=
  ⟨by decide,
    (mmap_nonzero_addr_expected toyOps sampleConsts sampleState 0x1000 0xFFFFFFFF
      0xFFFFF000 (by decide)).1,
    (mmap_nonzero_addr_expected toyOps sampleConsts sampleState 0x1000 0xFFFFFFFF
      0xFFFFF000 (by decide)).2.2.1⟩

/-! ## Program break and process termination -/

/-- C6. Program-break query: for every pre-state whose step counter can be
incremented, the expected post-state of `FuzzStateSyscallBrk` has register 2 =
`PROGRAM_BREAK` and register 7 = 0, step = pre-step + 1, pc = old nextPc and
nextPc = old nextPc + 4 as a 32-bit sum (the exact sum when it fits in 32 bits),
while the memory root, heap, hi, lo, exit fields, preimage key and offset,
lastHint and the 30 other registers are those of the pre-state. -/
theorem brk_expected {Mem : Type} (ops : MemOps Mem) (c : Consts) (rnd : State Mem)
    (hstep : rnd.Step + 1 < 2 ^ 64) :
    (FuzzStateSyscallBrk ops c rnd).2.Registers 2 = c.PROGRAM_BREAK
    ∧ (FuzzStateSyscallBrk ops c rnd).2.Registers 7 = 0
    ∧ (FuzzStateSyscallBrk ops c rnd).2.Step = (FuzzStateSyscallBrk ops c rnd).1.Step + 1
    ∧ (FuzzStateSyscallBrk ops c rnd).2.PC = (FuzzStateSyscallBrk ops c rnd).1.NextPC
    ∧ (FuzzStateSyscallBrk ops c rnd).2.NextPC
        = ((FuzzStateSyscallBrk ops c rnd).1.NextPC + 4) % 2 ^ 32
    ∧ ((FuzzStateSyscallBrk ops c rnd).1.NextPC + 4 < 2 ^ 32 →
        (FuzzStateSyscallBrk ops c rnd).2.NextPC
          = (FuzzStateSyscallBrk ops c rnd).1.NextPC + 4)
    ∧ (FuzzStateSyscallBrk ops c rnd).2.MemoryRoot
        = ops.MerkleRoot (FuzzStateSyscallBrk ops c rnd).1.Memory
    ∧ (FuzzStateSyscallBrk ops c rnd).2.Heap = (FuzzStateSyscallBrk ops c rnd).1.Heap
    ∧ (FuzzStateSyscallBrk ops c rnd).2.HI = (FuzzStateSyscallBrk ops c rnd).1.HI
    ∧ (FuzzStateSyscallBrk ops c rnd).2.LO = (FuzzStateSyscallBrk ops c rnd).1.LO
    ∧ (FuzzStateSyscallBrk ops c rnd).2.Exited = (FuzzStateSyscallBrk ops c rnd).1.Exited
    ∧ (FuzzStateSyscallBrk ops c rnd).2.ExitCode
        = (FuzzStateSyscallBrk ops c rnd).1.ExitCode
    ∧ (FuzzStateSyscallBrk ops c rnd).2.PreimageKey
        = (FuzzStateSyscallBrk ops c rnd).1.PreimageKey
    ∧ (FuzzStateSyscallBrk ops c rnd).2.PreimageOffset
        = (FuzzStateSyscallBrk ops c rnd).1.PreimageOffset
    ∧ (FuzzStateSyscallBrk ops c rnd).2.LastHint
        = (FuzzStateSyscallBrk ops c rnd).1.LastHint
    ∧ (∀ i : Fin 32, i ≠ 2 → i ≠ 7 →
        (FuzzStateSyscallBrk ops c rnd).2.Registers i
          = (FuzzStateSyscallBrk ops c rnd).1.Registers i) := by
  refine ⟨?_, ?_, ?_, ?_, ?_, ?_, ?_, ?_, ?_, ?_, ?_, ?_, ?_, ?_, ?_, ?_⟩ <;>
    simp only [FuzzStateSyscallBrk, ExpectedState.setRegister, CreateExpectedState,
      State.setRegister, State.setMemory, u32Add, u64Add]
  · simp
  · simp
  · exact Nat.mod_eq_of_lt hstep
  · intro h; exact Nat.mod_eq_of_lt h
  · intro i h2 h7
    simp [Function.update, h2, h7]

/-- Instance of `brk_expected` at the sample state. -/
theorem brk_expected_witness :
    sampleState.Step + 1 < 2 ^ 64
    ∧ (FuzzStateSyscallBrk toyOps sampleConsts sampleState).2.Registers 2 = 0x40000000
    ∧ (FuzzStateSyscallBrk toyOps sampleConsts sampleState).2.Step
        = (FuzzStateSyscallBrk toyOps sampleConsts sampleState).1.Step + 1 :=
  ⟨by decide, (brk_expected toyOps sampleConsts sampleState (by decide)).1,
    (brk_expected toyOps sampleConsts sampleState (by decide)).2.2.1⟩

/-- C4. Process termination: for every exit code `c` in 0..255 and every
pre-state whose step counter can be incremented, the expected post-state of
`FuzzStateSyscallExitGroup` has exited = true, exitCode = `c` and step =
pre-step + 1, and every other field is that of the pre-state: pc and nextPc are
not advanced, and the 32 registers, hi, lo, heap, preimage key, preimage offset,
lastHint and memory root are unchanged. The pre-state holds `c` in register 4. -/
theorem exit_group_expected {Mem : Type} (ops : MemOps Mem) (c : Consts) (rnd : State Mem)
    (exitCode : Nat) (hcode : exitCode < 256) (hstep : rnd.Step + 1 < 2 ^ 64) :
    (FuzzStateSyscallExitGroup ops c rnd exitCode).1.Registers 4 = exitCode
    ∧ (FuzzStateSyscallExitGroup ops c rnd exitCode).2.Exited = true
    ∧ (FuzzStateSyscallExitGroup ops c rnd exitCode).2.ExitCode = exitCode
    ∧ (FuzzStateSyscallExitGroup ops c rnd exitCode).2.Step
        = (FuzzStateSyscallExitGroup ops c rnd exitCode).1.Step + 1
    ∧ (FuzzStateSyscallExitGroup ops c rnd exitCode).2.PC
        = (FuzzStateSyscallExitGroup ops c rnd exitCode).1.PC
    ∧ (FuzzStateSyscallExitGroup ops c rnd exitCode).2.NextPC
        = (FuzzStateSyscallExitGroup ops c rnd exitCode).1.NextPC
    ∧ (FuzzStateSyscallExitGroup ops c rnd exitCode).2.Registers
        = (FuzzStateSyscallExitGroup ops c rnd exitCode).1.Registers
    ∧ (FuzzStateSyscallExitGroup ops c rnd exitCode).2.HI
        = (FuzzStateSyscallExitGroup ops c rnd exitCode).1.HI
    ∧ (FuzzStateSyscallExitGroup ops c rnd exitCode).2.LO
        = (FuzzStateSyscallExitGroup ops c rnd exitCode).1.LO
    ∧ (FuzzStateSyscallExitGroup ops c rnd exitCode).2.Heap
        = (FuzzStateSyscallExitGroup ops c rnd exitCode).1.Heap
    ∧ (FuzzStateSyscallExitGroup ops c rnd exitCode).2.PreimageKey
        = (FuzzStateSyscallExitGroup ops c rnd exitCode).1.PreimageKey
    ∧ (FuzzStateSyscallExitGroup ops c rnd exitCode).2.PreimageOffset
        = (FuzzStateSyscallExitGroup ops c rnd exitCode).1.PreimageOffset
    ∧ (FuzzStateSyscallExitGroup ops c rnd exitCode).2.LastHint
        = (FuzzStateSyscallExitGroup ops c rnd exitCode).1.LastHint
    ∧ (FuzzStateSyscallExitGroup ops c rnd exitCode).2.MemoryRoot
        = ops.MerkleRoot (FuzzStateSyscallExitGroup ops c rnd exitCode).1.Memory := by
  have _ := hcode
  refine ⟨?_, ?_, ?_, ?_, ?_, ?_, ?_, ?_, ?_, ?_, ?_, ?_, ?_, ?_⟩ <;>
    simp only [FuzzStateSyscallExitGroup, ExpectedState.setRegister, CreateExpectedState,
      State.setRegister, State.setMemory, u64Add]
  · simp
  · exact Nat.mod_eq_of_lt hstep

/-- Instance of `exit_group_expected`: exit code 255 from the sample state. -/
theorem exit_group_expected_witness :
    (255 < 256 ∧ sampleState.Step + 1 < 2 ^ 64)
    ∧ (FuzzStateSyscallExitGroup toyOps sampleConsts sampleState 255).2.ExitCode = 255
    ∧ (FuzzStateSyscallExitGroup toyOps sampleConsts sampleState 255).2.PC
        = (FuzzStateSyscallExitGroup toyOps sampleConsts sampleState 255).1.PC :=
  ⟨⟨by decide, by decide⟩,
    (exit_group_expected toyOps sampleConsts sampleState 255 (by decide) (by decide)).2.2.1,
    (exit_group_expected toyOps sampleConsts sampleState 255 (by decide)
      (by decide)).2.2.2.2.1⟩

/-! ## Preimage read -/

/-- The low two bits of an address are its remainder modulo 4, and the distance
to the next word boundary needs no wrap-around. -/
theorem word_room (a : Nat) : u32Sub 4 (a &&& 3) = 4 - a % 4 := by
  have h : a &&& 3 = a % 4 := Nat.and_pow_two_sub_one_eq_mod a 2
  have h4 : a % 4 < 4 := Nat.mod_lt _ (by decide)
  rw [h]
  unfold u32Sub
  omega

/-- The transfer length computed by the test is the minimum of the three caps. -/
theorem expectedWriteLen_eq (L a n o : Nat) (hL : L + 12 < 2 ^ 32) (ho : o ≤ L + 8) :
    expectedWriteLen L a n o = min n (min (4 - a % 4) (L + 8 - o)) := by
  have h4 : a % 4 < 4 := Nat.mod_lt _ (by decide)
  simp only [expectedWriteLen, word_room]
  unfold u32Add u32Sub
  by_cases hn : n < 4 - a % 4
  · simp only [hn, if_true]
    split <;> omega
  · simp only [hn, if_false]
    split <;> omega

/-- C2. Preimage read length: for every target address `a`, requested count
`n`, preimage value of content length `L` (with `L + 12 < 2 ^ 32`; the test
uses the 11 bytes of `helloWorld`) and offset `o`: when `o ≤ L + 8` the transfer
length computed by the test is `min n (min (4 - a % 4) (L + 8 - o))`, and when
`o < L` (the offsets the test does not skip) `FuzzStatePreimageRead` yields a
pre-state with preimage offset `o` and an expected post-state with register 2
equal to that minimum, register 7 = 0 and preimageOffset = `o` plus that
minimum. -/
theorem preimage_read_expected {Mem : Type} (ops : MemOps Mem) (c : Consts)
    (preimageValue : List Nat) (preimageKey : Hash) (rnd : State Mem) (a n o : Nat)
    (hL : preimageValue.length + 12 < 2 ^ 32) :
    (o ≤ preimageValue.length + 8 →
      expectedWriteLen preimageValue.length a n o
        = min n (min (4 - a % 4) (preimageValue.length + 8 - o)))
    ∧ (o < preimageValue.length →
      ∃ st e, FuzzStatePreimageRead ops c preimageValue preimageKey rnd a n o = some (st, e)
        ∧ st.PreimageOffset = o
        ∧ e.Registers 2 = min n (min (4 - a % 4) (preimageValue.length + 8 - o))
        ∧ e.Registers 7 = 0
        ∧ e.PreimageOffset
            = o + min n (min (4 - a % 4) (preimageValue.length + 8 - o))) := by
  refine ⟨fun ho => expectedWriteLen_eq _ a n o hL ho, fun ho => ?_⟩
  have hlen := expectedWriteLen_eq preimageValue.length a n o hL (by omega)
  have hmod : preimageValue.length % 2 ^ 32 = preimageValue.length :=
    Nat.mod_eq_of_lt (by omega)
  have hskip : ¬ (o ≥ preimageValue.length % 2 ^ 32) := by rw [hmod]; omega
  have hsum : u32Add o (min n (min (4 - a % 4) (preimageValue.length + 8 - o)))
      = o + min n (min (4 - a % 4) (preimageValue.length + 8 - o)) := by
    unfold u32Add
    apply Nat.mod_eq_of_lt
    have := Nat.min_le_right n (min (4 - a % 4) (preimageValue.length + 8 - o))
    have := Nat.min_le_right (4 - a % 4) (preimageValue.length + 8 - o)
    omega
  simp only [FuzzStatePreimageRead, if_neg hskip, hlen]
  refine ⟨_, _, rfl, ?_, ?_, ?_, ?_⟩
  · simp [State.setRegister, State.setMemory, WithPreimageOffset]
  · simp [ExpectedState.setRegister]
  · simp [ExpectedState.setRegister]
  · simp only [ExpectedState.setRegister, CreateExpectedState, State.setRegister,
      State.setMemory, WithPreimageOffset, WithPreimageKey]
    exact hsum

/-- Instance of `preimage_read_expected`: reading 4 bytes of `helloWorld` at an
address with low bits 3 from offset 10 transfers one byte. -/
theorem preimage_read_expected_witness :
    helloWorld.length + 12 < 2 ^ 32
    ∧ expectedWriteLen helloWorld.length 0x1003 4 10 = 1 :=
  ⟨by decide,
    (preimage_read_expected toyOps sampleConsts helloWorld [1] sampleState 0x1003 4 10
      (by decide)).1 (by decide)⟩

/-! ## Hint read, file-descriptor control, preimage write -/

/-- The expected post-state built by `FuzzStateHintRead`: register 2 = `n`,
register 7 = 0; step, pc and nextPc advanced (step by one, pc to the old nextPc,
nextPc by 4 as a 32-bit sum); the memory root, preimage key, preimage offset,
lastHint, heap, hi, lo, exit fields and every other register are the snapshot of
the pre-state. -/
theorem hint_read_expected {Mem : Type} (ops : MemOps Mem) (c : Consts) (preimageKey : Hash)
    (rnd : State Mem) (a n : Nat) (hstep : rnd.Step + 1 < 2 ^ 64) :
    (FuzzStateHintRead ops c preimageKey rnd a n).2.Registers 2 = n
    ∧ (FuzzStateHintRead ops c preimageKey rnd a n).2.Registers 7 = 0
    ∧ (FuzzStateHintRead ops c preimageKey rnd a n).2.Step
        = (FuzzStateHintRead ops c preimageKey rnd a n).1.Step + 1
    ∧ (FuzzStateHintRead ops c preimageKey rnd a n).2.PC
        = (FuzzStateHintRead ops c preimageKey rnd a n).1.NextPC
    ∧ (FuzzStateHintRead ops c preimageKey rnd a n).2.NextPC
        = ((FuzzStateHintRead ops c preimageKey rnd a n).1.NextPC + 4) % 2 ^ 32
    ∧ ((FuzzStateHintRead ops c preimageKey rnd a n).1.NextPC + 4 < 2 ^ 32 →
        (FuzzStateHintRead ops c preimageKey rnd a n).2.NextPC
            = (FuzzStateHintRead ops c preimageKey rnd a n).1.NextPC + 4)
    ∧ (FuzzStateHintRead ops c preimageKey rnd a n).2.Heap
        = (FuzzStateHintRead ops c preimageKey rnd a n).1.Heap
    ∧ (FuzzStateHintRead ops c preimageKey rnd a n).2.HI
        = (FuzzStateHintRead ops c preimageKey rnd a n).1.HI
    ∧ (FuzzStateHintRead ops c preimageKey rnd a n).2.LO
        = (FuzzStateHintRead ops c preimageKey rnd a n).1.LO
    ∧ (FuzzStateHintRead ops c preimageKey rnd a n).2.Exited
        = (FuzzStateHintRead ops c preimageKey rnd a n).1.Exited
    ∧ (FuzzStateHintRead ops c preimageKey rnd a n).2.ExitCode
        = (FuzzStateHintRead ops c preimageKey rnd a n).1.ExitCode
    ∧ (FuzzStateHintRead ops c preimageKey rnd a n).2.PreimageKey
        = (FuzzStateHintRead ops c preimageKey rnd a n).1.PreimageKey
    ∧ (FuzzStateHintRead ops c preimageKey rnd a n).2.PreimageOffset
        = (FuzzStateHintRead ops c preimageKey rnd a n).1.PreimageOffset
    ∧ (FuzzStateHintRead ops c preimageKey rnd a n).2.LastHint
        = (FuzzStateHintRead ops c preimageKey rnd a n).1.LastHint
    ∧ (FuzzStateHintRead ops c preimageKey rnd a n).2.MemoryRoot
        = ops.MerkleRoot (FuzzStateHintRead ops c preimageKey rnd a n).1.Memory
    ∧ (∀ i : Fin 32, i ≠ 2 → i ≠ 7 →
        (FuzzStateHintRead ops c preimageKey rnd a n).2.Registers i
            = (FuzzStateHintRead ops c preimageKey rnd a n).1.Registers i) := by
  refine ⟨?_, ?_, ?_, ?_, ?_, ?_, ?_, ?_, ?_, ?_, ?_, ?_, ?_, ?_, ?_, ?_⟩ <;>
    simp only [FuzzStateHintRead, ExpectedState.setRegister, CreateExpectedState,
      State.setRegister, State.setMemory, WithPreimageKey, u32Add, u64Add]
  · simp
  · simp
  · exact Nat.mod_eq_of_lt hstep
  · intro h; exact Nat.mod_eq_of_lt h
  · intro i h2 h7
    simp [Function.update, h2, h7]

/-- C3. File-descriptor control: for every descriptor `fd` and command `cmd`,
with the seven descriptor constants pairwise distinct, the pair (register 2,
register 7) expected by `FuzzStateSyscallFcntl` is (0, 0) when `cmd = 3` and
`fd` is stdin, preimage-read or hint-read; (1, 0) when `cmd = 3` and `fd` is
stdout, stderr, preimage-write or hint-write; (0xFFFFFFFF, EBADF) when `cmd = 3`
and `fd` is any other descriptor; (0xFFFFFFFF, EINVAL) for every other `cmd`.
Every field other than step, pc, nextPc, register 2 and register 7 is that of
the pre-state. -/
theorem fcntl_expected {Mem : Type} (ops : MemOps Mem) (c : Consts) (rnd : State Mem)
    (fd cmd : Nat)
    (hfd : [c.FdStdin, c.FdPreimageRead, c.FdHintRead, c.FdStdout, c.FdStderr,
      c.FdPreimageWrite, c.FdHintWrite].Nodup) :
    (cmd = 3 → (fd = c.FdStdin ∨ fd = c.FdPreimageRead ∨ fd = c.FdHintRead) →
        (FuzzStateSyscallFcntl ops c rnd fd cmd).2.Registers 2 = 0
        ∧ (FuzzStateSyscallFcntl ops c rnd fd cmd).2.Registers 7 = 0)
    ∧ (cmd = 3 →
        (fd = c.FdStdout ∨ fd = c.FdStderr ∨ fd = c.FdPreimageWrite ∨ fd = c.FdHintWrite) →
        (FuzzStateSyscallFcntl ops c rnd fd cmd).2.Registers 2 = 1
        ∧ (FuzzStateSyscallFcntl ops c rnd fd cmd).2.Registers 7 = 0)
    ∧ (cmd = 3 → ¬ (fd = c.FdStdin ∨ fd = c.FdPreimageRead ∨ fd = c.FdHintRead) →
        ¬ (fd = c.FdStdout ∨ fd = c.FdStderr ∨ fd = c.FdPreimageWrite ∨ fd = c.FdHintWrite) →
        (FuzzStateSyscallFcntl ops c rnd fd cmd).2.Registers 2 = 0xFFFFFFFF
        ∧ (FuzzStateSyscallFcntl ops c rnd fd cmd).2.Registers 7 = c.MipsEBADF)
    ∧ (cmd ≠ 3 →
        (FuzzStateSyscallFcntl ops c rnd fd cmd).2.Registers 2 = 0xFFFFFFFF
        ∧ (FuzzStateSyscallFcntl ops c rnd fd cmd).2.Registers 7 = c.MipsEINVAL)
    ∧ (FuzzStateSyscallFcntl ops c rnd fd cmd).2.Heap
        = (FuzzStateSyscallFcntl ops c rnd fd cmd).1.Heap
    ∧ (FuzzStateSyscallFcntl ops c rnd fd cmd).2.HI = (FuzzStateSyscallFcntl ops c rnd fd cmd).1.HI
    ∧ (FuzzStateSyscallFcntl ops c rnd fd cmd).2.LO = (FuzzStateSyscallFcntl ops c rnd fd cmd).1.LO
    ∧ (FuzzStateSyscallFcntl ops c rnd fd cmd).2.Exited
        = (FuzzStateSyscallFcntl ops c rnd fd cmd).1.Exited
    ∧ (FuzzStateSyscallFcntl ops c rnd fd cmd).2.ExitCode
        = (FuzzStateSyscallFcntl ops c rnd fd cmd).1.ExitCode
    ∧ (FuzzStateSyscallFcntl ops c rnd fd cmd).2.PreimageKey
        = (FuzzStateSyscallFcntl ops c rnd fd cmd).1.PreimageKey
    ∧ (FuzzStateSyscallFcntl ops c rnd fd cmd).2.PreimageOffset
        = (FuzzStateSyscallFcntl ops c rnd fd cmd).1.PreimageOffset
    ∧ (FuzzStateSyscallFcntl ops c rnd fd cmd).2.LastHint
        = (FuzzStateSyscallFcntl ops c rnd fd cmd).1.LastHint
    ∧ (FuzzStateSyscallFcntl ops c rnd fd cmd).2.MemoryRoot
        = ops.MerkleRoot (FuzzStateSyscallFcntl ops c rnd fd cmd).1.Memory
    ∧ (∀ i : Fin 32, i ≠ 2 → i ≠ 7 →
        (FuzzStateSyscallFcntl ops c rnd fd cmd).2.Registers i
            = (FuzzStateSyscallFcntl ops c rnd fd cmd).1.Registers i) := by
  have hdisj : (fd = c.FdStdout ∨ fd = c.FdStderr ∨ fd = c.FdPreimageWrite
      ∨ fd = c.FdHintWrite) →
      ¬ (fd = c.FdStdin ∨ fd = c.FdPreimageRead ∨ fd = c.FdHintRead) := by
    simp only [List.nodup_cons, List.mem_cons, List.mem_singleton, not_or] at hfd
    rintro (h | h | h | h) (h2 | h2 | h2) <;> subst h <;> simp_all
  by_cases h3 : cmd = 3
  · by_cases hR : fd = c.FdStdin ∨ fd = c.FdPreimageRead ∨ fd = c.FdHintRead
    · have hW := fun h => hdisj h hR
      simp only [FuzzStateSyscallFcntl]
      rw [if_pos h3, if_pos hR]
      simp only [ExpectedState.setRegister, CreateExpectedState, State.setRegister,
        State.setMemory]
      simp +contextual [Function.update, h3, hR, hW]
    · by_cases hW : fd = c.FdStdout ∨ fd = c.FdStderr ∨ fd = c.FdPreimageWrite
          ∨ fd = c.FdHintWrite
      · simp only [FuzzStateSyscallFcntl]
        rw [if_pos h3, if_neg hR, if_pos hW]
        simp only [ExpectedState.setRegister, CreateExpectedState, State.setRegister,
          State.setMemory]
        simp +contextual [Function.update, h3, hR, hW]
      · simp only [FuzzStateSyscallFcntl]
        rw [if_pos h3, if_neg hR, if_neg hW]
        simp only [ExpectedState.setRegister, CreateExpectedState, State.setRegister,
          State.setMemory]
        simp +contextual [Function.update, h3, hR, hW]
  · simp only [FuzzStateSyscallFcntl]
    rw [if_neg h3]
    simp only [ExpectedState.setRegister, CreateExpectedState, State.setRegister,
      State.setMemory]
    simp +contextual [Function.update, h3]

/-- Instance of `fcntl_expected`: the get-flags command on the preimage-write
descriptor of the sample constants. -/
theorem fcntl_expected_witness :
    [sampleConsts.FdStdin, sampleConsts.FdPreimageRead, sampleConsts.FdHintRead,
      sampleConsts.FdStdout, sampleConsts.FdStderr, sampleConsts.FdPreimageWrite,
      sampleConsts.FdHintWrite].Nodup
    ∧ (FuzzStateSyscallFcntl toyOps sampleConsts sampleState 6 3).2.Registers 2 = 1
    ∧ (FuzzStateSyscallFcntl toyOps sampleConsts sampleState 6 3).2.Registers 7 = 0 :=
  ⟨by decide,
    (fcntl_expected toyOps sampleConsts sampleState 6 3 (by decide)).2.1 rfl
      (Or.inr (Or.inr (Or.inl rfl)))⟩

/-- C5. Preimage write: for every address `a`, requested count `n` and
previously active preimage offset `o` (the test itself starts from 128, being
the body below at `o = 128`), and every pre-state whose step counter can be
incremented, the expected post-state of the preimage-write test has
preimageOffset = 0, register 2 = `min n (4 - a % 4)` and register 7 = 0; step
advances by one, pc becomes the old nextPc and nextPc the old nextPc + 4 as a
32-bit sum; no other register, nor heap, hi, lo, the exit fields, lastHint or
the memory root changes. -/
theorem preimage_write_expected {Mem : Type} (ops : MemOps Mem) (c : Consts)
    (preimageKey : Hash) (rnd : State Mem) (a n o : Nat) (hstep : rnd.Step + 1 < 2 ^ 64) :
    FuzzStatePreimageWrite ops c preimageKey rnd a n
        = FuzzStatePreimageWriteFrom ops c preimageKey 128 rnd a n
    ∧ (FuzzStatePreimageWriteFrom ops c preimageKey o rnd a n).1.PreimageOffset = o
    ∧ (FuzzStatePreimageWriteFrom ops c preimageKey o rnd a n).2.PreimageOffset = 0
    ∧ (FuzzStatePreimageWriteFrom ops c preimageKey o rnd a n).2.Registers 2 = min n (4 - a % 4)
    ∧ (FuzzStatePreimageWriteFrom ops c preimageKey o rnd a n).2.Registers 7 = 0
    ∧ (FuzzStatePreimageWriteFrom ops c preimageKey o rnd a n).2.Step
        = (FuzzStatePreimageWriteFrom ops c preimageKey o rnd a n).1.Step + 1
    ∧ (FuzzStatePreimageWriteFrom ops c preimageKey o rnd a n).2.PC
        = (FuzzStatePreimageWriteFrom ops c preimageKey o rnd a n).1.NextPC
    ∧ (FuzzStatePreimageWriteFrom ops c preimageKey o rnd a n).2.NextPC
        = ((FuzzStatePreimageWriteFrom ops c preimageKey o rnd a n).1.NextPC + 4) % 2 ^ 32
    ∧ ((FuzzStatePreimageWriteFrom ops c preimageKey o rnd a n).1.NextPC + 4 < 2 ^ 32 →
        (FuzzStatePreimageWriteFrom ops c preimageKey o rnd a n).2.NextPC
          = (FuzzStatePreimageWriteFrom ops c preimageKey o rnd a n).1.NextPC + 4)
    ∧ (FuzzStatePreimageWriteFrom ops c preimageKey o rnd a n).2.Heap
        = (FuzzStatePreimageWriteFrom ops c preimageKey o rnd a n).1.Heap
    ∧ (FuzzStatePreimageWriteFrom ops c preimageKey o rnd a n).2.HI
        = (FuzzStatePreimageWriteFrom ops c preimageKey o rnd a n).1.HI
    ∧ (FuzzStatePreimageWriteFrom ops c preimageKey o rnd a n).2.LO
        = (FuzzStatePreimageWriteFrom ops c preimageKey o rnd a n).1.LO
    ∧ (FuzzStatePreimageWriteFrom ops c preimageKey o rnd a n).2.Exited
        = (FuzzStatePreimageWriteFrom ops c preimageKey o rnd a n).1.Exited
    ∧ (FuzzStatePreimageWriteFrom ops c preimageKey o rnd a n).2.ExitCode
        = (FuzzStatePreimageWriteFrom ops c preimageKey o rnd a n).1.ExitCode
    ∧ (FuzzStatePreimageWriteFrom ops c preimageKey o rnd a n).2.LastHint
        = (FuzzStatePreimageWriteFrom ops c preimageKey o rnd a n).1.LastHint
    ∧ (FuzzStatePreimageWriteFrom ops c preimageKey o rnd a n).2.MemoryRoot
        = ops.MerkleRoot (FuzzStatePreimageWriteFrom ops c preimageKey o rnd a n).1.Memory
    ∧ (∀ i : Fin 32, i ≠ 2 → i ≠ 7 →
        (FuzzStatePreimageWriteFrom ops c preimageKey o rnd a n).2.Registers i
          = (FuzzStatePreimageWriteFrom ops c preimageKey o rnd a n).1.Registers i) := by
  have hmin : (if 4 - a % 4 < n then 4 - a % 4 else n) = min n (4 - a % 4) := by
    split <;> omega
  refine ⟨rfl, ?_, ?_, ?_, ?_, ?_, ?_, ?_, ?_, ?_, ?_, ?_, ?_, ?_, ?_, ?_, ?_⟩ <;>
    simp only [FuzzStatePreimageWriteFrom, ExpectedState.setRegister, CreateExpectedState,
      State.setRegister, State.setMemory, WithPreimageKey, WithPreimageOffset, u32Add,
      u64Add, word_room, hmin]
  · simp
  · simp
  · exact Nat.mod_eq_of_lt hstep
  · intro h; exact Nat.mod_eq_of_lt h
  · intro i h2 h7
    simp [Function.update, h2, h7]

/-- Instance of `preimage_write_expected`: from a previously active offset of
4000, eight bytes requested at an address with low bits 2 reset the offset to 0
and give a count of two; the test is the same body at offset 128. -/
theorem preimage_write_expected_witness :
    sampleState.Step + 1 < 2 ^ 64
    ∧ (FuzzStatePreimageWriteFrom toyOps sampleConsts [1] 4000 sampleState 0x1002
        8).1.PreimageOffset = 4000
    ∧ (FuzzStatePreimageWriteFrom toyOps sampleConsts [1] 4000 sampleState 0x1002
        8).2.PreimageOffset = 0
    ∧ (FuzzStatePreimageWriteFrom toyOps sampleConsts [1] 4000 sampleState 0x1002
        8).2.Registers 2 = 2
    ∧ (FuzzStatePreimageWrite toyOps sampleConsts [1] sampleState 0x1002 8).2.PreimageOffset
        = 0 :=
  ⟨by decide,
    (preimage_write_expected toyOps sampleConsts [1] sampleState 0x1002 8 4000
      (by decide)).2.1,
    (preimage_write_expected toyOps sampleConsts [1] sampleState 0x1002 8 4000
      (by decide)).2.2.1,
    (preimage_write_expected toyOps sampleConsts [1] sampleState 0x1002 8 4000
      (by decide)).2.2.2.1,
    (preimage_write_expected toyOps sampleConsts [1] sampleState 0x1002 8 128
      (by decide)).2.2.1⟩

/-! ## Hint write and validation -/

theorem registersEq_iff (r1 r2 : Fin 32 → Nat) : registersEq r1 r2 = true ↔ r1 = r2 := by
  unfold registersEq
  rw [List.all_eq_true]
  constructor
  · intro h
    funext i
    exact beq_iff_eq.mp (h i (List.mem_finRange i))
  · intro h i _
    rw [h]
    exact beq_self_eq_true _

/-- With the flags of `FuzzStateHintWrite`, `Validate` compares every field
except `LastHint`. -/
theorem validate_hintWriteFlags_iff {Mem : Type} (ops : MemOps Mem) (e : ExpectedState)
    (post : State Mem) :
    e.Validate ops post hintWriteFlags = true ↔
      (e.PreimageKey = post.PreimageKey ∧ e.PreimageOffset = post.PreimageOffset
        ∧ e.PC = post.PC ∧ e.NextPC = post.NextPC ∧ e.HI = post.HI ∧ e.LO = post.LO
        ∧ e.Heap = post.Heap ∧ e.ExitCode = post.ExitCode ∧ e.Exited = post.Exited
        ∧ e.Step = post.Step ∧ e.Registers = post.Registers
        ∧ e.MemoryRoot = ops.MerkleRoot post.Memory) := by
  have h1 : hintWriteFlags.contains StateValidationFlags.SkipPreimageKeyValidation = false := by
    decide
  have h2 : hintWriteFlags.contains StateValidationFlags.SkipHintValidation = true := by
    decide
  have h3 : hintWriteFlags.contains StateValidationFlags.SkipMemoryValidation = false := by
    decide
  unfold ExpectedState.Validate
  rw [h1, h2, h3]
  simp only [Bool.false_or, Bool.true_or, Bool.and_true, Bool.and_eq_true, beq_iff_eq,
    registersEq_iff]
  tauto

/-- The expected post-state built by `FuzzStateHintWrite` when `SetMemoryRange`
succeeds: register 2 = `n`, register 7 = 0, and memory root, preimage key,
preimage offset and lastHint are the snapshot of the pre-state; `Validate` with
the flag of the test accepts a post-state exactly when every field other than
lastHint matches. -/
theorem hint_write_expected {Mem : Type} (ops : MemOps Mem) (c : Consts) (preimageKey : Hash)
    (rnd : State Mem) (a n : Nat) (randBytes : List Nat) (mem : Mem)
    (hlen : randBytes.length = n)
    (hmem : ops.SetMemoryRange rnd.Memory a randBytes = some mem) :
    ∃ st e, FuzzStateHintWrite ops c preimageKey rnd a n randBytes = some (st, e)
      ∧ st.Memory = ops.SetMemory mem rnd.PC syscallInsn
      ∧ st.Registers 5 = a ∧ st.Registers 6 = randBytes.length
      ∧ e.Registers 2 = n ∧ e.Registers 7 = 0
      ∧ e.MemoryRoot = ops.MerkleRoot st.Memory
      ∧ e.PreimageKey = st.PreimageKey
      ∧ e.PreimageOffset = st.PreimageOffset
      ∧ e.LastHint = st.LastHint
      ∧ ∀ post : State Mem, e.Validate ops post hintWriteFlags = true ↔
          (e.PreimageKey = post.PreimageKey ∧ e.PreimageOffset = post.PreimageOffset
            ∧ e.PC = post.PC ∧ e.NextPC = post.NextPC ∧ e.HI = post.HI ∧ e.LO = post.LO
            ∧ e.Heap = post.Heap ∧ e.ExitCode = post.ExitCode ∧ e.Exited = post.Exited
            ∧ e.Step = post.Step ∧ e.Registers = post.Registers
            ∧ e.MemoryRoot = ops.MerkleRoot post.Memory) := by
  have hmem2 : ops.SetMemoryRange
      ((((WithPreimageKey preimageKey rnd).setRegister 2 c.SysWrite).setRegister 4
        c.FdHintWrite).setRegister 5 a |>.setRegister 6 n).Memory a randBytes = some mem :=
    hmem
  simp only [FuzzStateHintWrite, hmem2]
  refine ⟨_, _, rfl, ?_, ?_, ?_, ?_, ?_, ?_, ?_, ?_, ?_,
    fun post => validate_hintWriteFlags_iff ops _ post⟩ <;>
    simp [ExpectedState.setRegister, CreateExpectedState, State.setRegister,
      State.setMemory, WithPreimageKey, hlen]

/-! ## Checkpoint parsing -/

/-- When the file opens and its content fails to decode, `parseState` returns no
state and an error that wraps the decode cause; the message is the fixed prefix
followed by the cause, whatever the path. -/
theorem parseState_decode_failure {St : Type}
    (OpenDecompressed : String → Except GoError (List Nat))
    (Decode : List Nat → Except GoError St) (path : String) (content : List Nat)
    (cause : GoError) (hopen : OpenDecompressed path = Except.ok content)
    (hdec : Decode content = Except.error cause) :
    parseState OpenDecompressed Decode path
      = (none, some (GoError.wrap ("invalid mipsevm state: " ++ cause.Error) cause)) := by
  simp [parseState, parseStateFromReader, hopen, hdec]

/-- C10 at a failing input. The file at /data/state.json opens and holds a
truncated document: `parseState` returns no state and an error wrapping the
decode cause, but the message of that error does not contain the path; the
sibling branch, for a file that cannot be opened, does put the path in the
message. -/
theorem parseState_decode_error_omits_path :
    parseState sampleOpen sampleDecode "/data/state.json"
      = (none, some (GoError.wrap "invalid mipsevm state: unexpected EOF"
          (GoError.leaf "unexpected EOF")))
    ∧ containsText "invalid mipsevm state: unexpected EOF" "unexpected EOF" = true
    ∧ containsText "invalid mipsevm state: unexpected EOF" "/data/state.json" = false
    ∧ parseState sampleOpen sampleDecode "/data/none.json"
      = (none, some (GoError.wrap
          "cannot open state file (/data/none.json): no such file or directory"
          (GoError.leaf "no such file or directory")))
    ∧ containsText "cannot open state file (/data/none.json): no such file or directory"
        "/data/none.json" = true := by
  refine ⟨?_, ?_, ?_, ?_, ?_⟩
  · exact parseState_decode_failure sampleOpen sampleDecode _ [123, 34, 112, 99] _
      (by simp [sampleOpen]) rfl
  · decide
  · decide
  · decide
  · decide

/-! ## Randomized pre-states -/

theorem and_mask_mod4 (v : Nat) : (v &&& 0xFFFFFFFC) % 4 = 0 := by
  have h := Nat.and_pow_two_sub_one_eq_mod (v &&& 0xFFFFFFFC) 2
  rw [Nat.land_assoc] at h
  rw [← h]
  have h0 : (0xFFFFFFFC &&& (2 ^ 2 - 1) : Nat) = 0 := by decide
  rw [h0, Nat.and_zero]

theorem and_mask_le (v : Nat) : v &&& 0xFFFFFFFC ≤ 0xFFFFFFFC :=
  Nat.and_le_right

/-- The pc chosen by `RandomizeState`, from the first `Uint32` draw. -/
theorem RandomizeState_PC {R Mem : Type} (rops : RandOps R) (seed : Int) (st : State Mem) :
    (RandomizeState rops seed st).PC
      = (if (rops.Uint32 (rops.New seed)).1 &&& 0xFFFFFFFC ≥ 0xFFFFFFFC then 0xFFFFFFFC - 8
          else (rops.Uint32 (rops.New seed)).1 &&& 0xFFFFFFFC) := by
  simp only [RandomizeState]

/-- The nextPc chosen by `RandomizeState` is the 32-bit sum pc + 4. -/
theorem RandomizeState_NextPC {R Mem : Type} (rops : RandOps R) (seed : Int)
    (st : State Mem) :
    (RandomizeState rops seed st).NextPC = u32Add (RandomizeState rops seed st).PC 4 := by
  simp only [RandomizeState]

/-- The step chosen by `RandomizeState`, from the `Uint64` draw. -/
theorem RandomizeState_Step {R Mem : Type} (rops : RandOps R) (seed : Int) (st : State Mem) :
    (RandomizeState rops seed st).Step
      = (if (rops.Uint64 (rops.Uint32 (rops.New seed)).2).1 = 2 ^ 64 - 1 then
          (rops.Uint64 (rops.Uint32 (rops.New seed)).2).1 - 1
          else (rops.Uint64 (rops.Uint32 (rops.New seed)).2).1) := by
  simp only [RandomizeState]

/-- What `RandomizeState` guarantees for every random source whose `Uint64`
draws are 64-bit values: pc is word-aligned and at most 0xFFFFFFF8, nextPc is
pc + 4 without wrap, and step is below `2 ^ 64 - 1`. The sum nextPc + 4 fits in
32 bits exactly when the masked first draw is not 0xFFFFFFF8. -/
theorem RandomizeState_room {R Mem : Type} (rops : RandOps R) (seed : Int) (st : State Mem)
    (h64 : ∀ r, (rops.Uint64 r).1 < 2 ^ 64) :
    (RandomizeState rops seed st).PC % 4 = 0
    ∧ (RandomizeState rops seed st).PC ≤ 0xFFFFFFF8
    ∧ (RandomizeState rops seed st).NextPC = (RandomizeState rops seed st).PC + 4
    ∧ (RandomizeState rops seed st).NextPC < 2 ^ 32
    ∧ (RandomizeState rops seed st).Step < 2 ^ 64 - 1
    ∧ ((RandomizeState rops seed st).NextPC + 4 < 2 ^ 32
        ↔ (rops.Uint32 (rops.New seed)).1 &&& 0xFFFFFFFC ≠ 0xFFFFFFF8) := by
  have hmod := and_mask_mod4 (rops.Uint32 (rops.New seed)).1
  have hle := and_mask_le (rops.Uint32 (rops.New seed)).1
  have hs := h64 (rops.Uint32 (rops.New seed)).2
  rw [RandomizeState_NextPC, RandomizeState_Step, RandomizeState_PC]
  unfold u32Add
  generalize (rops.Uint32 (rops.New seed)).1 &&& 0xFFFFFFFC = p at *
  generalize (rops.Uint64 (rops.Uint32 (rops.New seed)).2).1 = q at *
  refine ⟨?_, ?_, ?_, ?_, ?_, ?_⟩ <;> split <;> omega

/-- C12 at a failing input. With the counter source started at 0xFFFFFFF8, the
first `Uint32` draw is 0xFFFFFFF8: the guard `pc >= 0xFFFFFFFC` does not fire,
so `RandomizeState` yields the word-aligned pc 0xFFFFFFF8 and nextPc 0xFFFFFFFC
(no wrap so far) and a step below `2 ^ 64 - 1`, but nextPc + 4 is `2 ^ 32`: the
32-bit sum wraps to 0, which is the nextPc that `FuzzStateSyscallBrk` expects
after the step. One draw higher up, at 0xFFFFFFFC, the guard fires and leaves
room for both increments. -/
theorem RandomizeState_nextPC_wraps :
    (counterRand.Uint32 (counterRand.New 0xFFFFFFF8)).1 = 0xFFFFFFF8
    ∧ (RandomizeState counterRand 0xFFFFFFF8 sampleState).PC = 0xFFFFFFF8
    ∧ (RandomizeState counterRand 0xFFFFFFF8 sampleState).PC % 4 = 0
    ∧ (RandomizeState counterRand 0xFFFFFFF8 sampleState).NextPC = 0xFFFFFFFC
    ∧ (RandomizeState counterRand 0xFFFFFFF8 sampleState).Step < 2 ^ 64 - 1
    ∧ (RandomizeState counterRand 0xFFFFFFF8 sampleState).NextPC + 4 = 2 ^ 32
    ∧ u32Add (RandomizeState counterRand 0xFFFFFFF8 sampleState).NextPC 4 = 0
    ∧ (FuzzStateSyscallBrk toyOps sampleConsts
        (WithRandomization counterRand 0xFFFFFFF8 sampleState)).2.NextPC = 0
    ∧ (RandomizeState counterRand 0xFFFFFFFC sampleState).PC = 0xFFFFFFF4
    ∧ (RandomizeState counterRand 0xFFFFFFFC sampleState).NextPC + 4 = 0xFFFFFFFC := by
  refine ⟨?_, ?_, ?_, ?_, ?_, ?_, ?_, ?_, ?_, ?_⟩ <;> decide

/-! ## The interpreter step on the hint descriptors -/

/-- Without flags, `Validate` compares every field. -/
theorem validate_noFlags_iff {Mem : Type} (ops : MemOps Mem) (e : ExpectedState)
    (post : State Mem) :
    e.Validate ops post [] = true ↔
      (e.PreimageKey = post.PreimageKey ∧ e.PreimageOffset = post.PreimageOffset
        ∧ e.PC = post.PC ∧ e.NextPC = post.NextPC ∧ e.HI = post.HI ∧ e.LO = post.LO
        ∧ e.Heap = post.Heap ∧ e.ExitCode = post.ExitCode ∧ e.Exited = post.Exited
        ∧ e.Step = post.Step ∧ e.LastHint = post.LastHint
        ∧ e.Registers = post.Registers
        ∧ e.MemoryRoot = ops.MerkleRoot post.Memory) := by
  unfold ExpectedState.Validate
  simp only [List.contains_nil, Bool.false_or, Bool.and_eq_true, beq_iff_eq,
    registersEq_iff]
  tauto

/-- The modelled step on a read from the hint-read descriptor. -/
theorem goVmStep_hint_read {Mem : Type} (rd : MemRead Mem) (c : Consts) (s : State Mem)
    (hrun : s.Exited = false) (hfetch : rd.GetMemory s.Memory s.PC = syscallInsn)
    (h2 : s.Registers 2 = c.SysRead) (h4 : s.Registers 4 = c.FdHintRead) :
    goVmStep rd c s = some (syscallReturn s (s.Registers 6) 0) := by
  simp [goVmStep, hrun, hfetch, h2, h4]

/-- The modelled step on a write to the hint-write descriptor. -/
theorem goVmStep_hint_write {Mem : Type} (rd : MemRead Mem) (c : Consts) (s : State Mem)
    (hrun : s.Exited = false) (hfetch : rd.GetMemory s.Memory s.PC = syscallInsn)
    (hsys : c.SysRead ≠ c.SysWrite)
    (h2 : s.Registers 2 = c.SysWrite) (h4 : s.Registers 4 = c.FdHintWrite) :
    goVmStep rd c s
      = some (syscallReturn
          { s with LastHint := some (rd.ReadMemoryRange s.Memory (s.Registers 5)
              (s.Registers 6)) } (s.Registers 6) 0) := by
  have hne : ¬ c.SysWrite = c.SysRead := fun h => hsys h.symm
  simp [goVmStep, hrun, hfetch, h2, h4, hne]

/-- C8. Hint read: for every address `a` and count `n`, from the pre-state
`FuzzStateHintRead` sets up (not exited, the syscall instruction at pc, a step
counter that can be incremented), the step on the hint-read descriptor returns
register 2 = `n`, the whole requested count with no alignment or length cap,
and register 7 = 0, and leaves the memory root, preimage key, preimage offset,
lastHint, heap, hi, lo, exit fields and every other register unchanged; only
step, pc and nextPc advance (step by one, pc to the old nextPc, nextPc by 4 as a
32-bit sum). The post-state passes `Validate` against the expected state of the
test with no flag, and every post-state the test accepts has these values. -/
theorem hint_read_step {Mem : Type} (ops : MemOps Mem) (rd : MemRead Mem) (c : Consts)
    (preimageKey : Hash) (rnd : State Mem) (a n : Nat)
    (hrun : rnd.Exited = false)
    (hfetch : rd.GetMemory (FuzzStateHintRead ops c preimageKey rnd a n).1.Memory
      (FuzzStateHintRead ops c preimageKey rnd a n).1.PC = syscallInsn)
    (hstep : rnd.Step + 1 < 2 ^ 64) :
    ∃ post : State Mem,
      goVmStep rd c (FuzzStateHintRead ops c preimageKey rnd a n).1 = some post
      ∧ (FuzzStateHintRead ops c preimageKey rnd a n).1.Registers 4 = c.FdHintRead
      ∧ (FuzzStateHintRead ops c preimageKey rnd a n).1.Registers 5 = a
      ∧ (FuzzStateHintRead ops c preimageKey rnd a n).1.Registers 6 = n
      ∧ post.Registers 2 = n
      ∧ post.Registers 7 = 0
      ∧ ops.MerkleRoot post.Memory
          = ops.MerkleRoot (FuzzStateHintRead ops c preimageKey rnd a n).1.Memory
      ∧ post.PreimageKey = (FuzzStateHintRead ops c preimageKey rnd a n).1.PreimageKey
      ∧ post.PreimageOffset = (FuzzStateHintRead ops c preimageKey rnd a n).1.PreimageOffset
      ∧ post.LastHint = (FuzzStateHintRead ops c preimageKey rnd a n).1.LastHint
      ∧ post.Heap = (FuzzStateHintRead ops c preimageKey rnd a n).1.Heap
      ∧ post.HI = (FuzzStateHintRead ops c preimageKey rnd a n).1.HI
      ∧ post.LO = (FuzzStateHintRead ops c preimageKey rnd a n).1.LO
      ∧ post.Exited = (FuzzStateHintRead ops c preimageKey rnd a n).1.Exited
      ∧ post.ExitCode = (FuzzStateHintRead ops c preimageKey rnd a n).1.ExitCode
      ∧ (∀ i : Fin 32, i ≠ 2 → i ≠ 7 →
          post.Registers i = (FuzzStateHintRead ops c preimageKey rnd a n).1.Registers i)
      ∧ post.Step = (FuzzStateHintRead ops c preimageKey rnd a n).1.Step + 1
      ∧ post.PC = (FuzzStateHintRead ops c preimageKey rnd a n).1.NextPC
      ∧ post.NextPC = ((FuzzStateHintRead ops c preimageKey rnd a n).1.NextPC + 4) % 2 ^ 32
      ∧ (FuzzStateHintRead ops c preimageKey rnd a n).2.Validate ops post [] = true
      ∧ (∀ post2 : State Mem,
          (FuzzStateHintRead ops c preimageKey rnd a n).2.Validate ops post2 [] = true →
            post2.Registers 2 = n ∧ post2.Registers 7 = 0
            ∧ ops.MerkleRoot post2.Memory
                = ops.MerkleRoot (FuzzStateHintRead ops c preimageKey rnd a n).1.Memory
            ∧ post2.PreimageKey = (FuzzStateHintRead ops c preimageKey rnd a n).1.PreimageKey
            ∧ post2.PreimageOffset = (FuzzStateHintRead ops c preimageKey rnd a n).1.PreimageOffset
            ∧ post2.LastHint = (FuzzStateHintRead ops c preimageKey rnd a n).1.LastHint
            ∧ post2.Heap = (FuzzStateHintRead ops c preimageKey rnd a n).1.Heap
            ∧ (∀ i : Fin 32, i ≠ 2 → i ≠ 7 →
                post2.Registers i = (FuzzStateHintRead ops c preimageKey rnd a n).1.Registers i)) := by
  have hexp := hint_read_expected ops c preimageKey rnd a n hstep
  have h2 : (FuzzStateHintRead ops c preimageKey rnd a n).1.Registers 2 = c.SysRead := by
    simp [FuzzStateHintRead, State.setRegister, State.setMemory, WithPreimageKey]
  have h4 : (FuzzStateHintRead ops c preimageKey rnd a n).1.Registers 4 = c.FdHintRead := by
    simp [FuzzStateHintRead, State.setRegister, State.setMemory, WithPreimageKey]
  have h5 : (FuzzStateHintRead ops c preimageKey rnd a n).1.Registers 5 = a := by
    simp [FuzzStateHintRead, State.setRegister, State.setMemory, WithPreimageKey]
  have h6 : (FuzzStateHintRead ops c preimageKey rnd a n).1.Registers 6 = n := by
    simp [FuzzStateHintRead, State.setRegister, State.setMemory, WithPreimageKey]
  have hrun2 : (FuzzStateHintRead ops c preimageKey rnd a n).1.Exited = false := hrun
  have hst : (FuzzStateHintRead ops c preimageKey rnd a n).1.Step = rnd.Step := rfl
  refine ⟨_, goVmStep_hint_read rd c _ hrun2 hfetch h2 h4, h4, h5, h6, ?_, ?_, rfl, rfl,
    rfl, rfl, rfl, rfl, rfl, rfl, rfl, ?_, ?_, rfl, rfl, ?_, ?_⟩
  · simp [syscallReturn, h6]
  · simp [syscallReturn]
  · intro i hi2 hi7
    simp [syscallReturn, Function.update, hi2, hi7]
  · simp only [syscallReturn, u64Add, hst]
    exact Nat.mod_eq_of_lt hstep
  · rw [validate_noFlags_iff]
    refine ⟨rfl, rfl, rfl, rfl, rfl, rfl, rfl, rfl, rfl, rfl, rfl, ?_, rfl⟩
    simp only [syscallReturn, h6]
    rfl
  · intro post2 hv
    rw [validate_noFlags_iff] at hv
    obtain ⟨hk, ho, _, _, _, _, hh, _, _, _, hl, hr, hm⟩ := hv
    refine ⟨?_, ?_, ?_, ?_, ?_, ?_, ?_, ?_⟩
    · rw [← hr]; exact hexp.1
    · rw [← hr]; exact hexp.2.1
    · rw [← hm]; exact hexp.2.2.2.2.2.2.2.2.2.2.2.2.2.2.1
    · rw [← hk]; exact hexp.2.2.2.2.2.2.2.2.2.2.2.1
    · rw [← ho]; exact hexp.2.2.2.2.2.2.2.2.2.2.2.2.1
    · rw [← hl]; exact hexp.2.2.2.2.2.2.2.2.2.2.2.2.2.1
    · rw [← hh]; exact hexp.2.2.2.2.2.2.1
    · intro i hi2 hi7
      rw [← hr]; exact hexp.2.2.2.2.2.2.2.2.2.2.2.2.2.2.2 i hi2 hi7

/-- Instance of `hint_read_step`: on the byte-addressed sample memory, a read of
1000 bytes at an address with low bits 3 returns 1000. -/
theorem hint_read_step_witness :
    sampleState.Exited = false
    ∧ byteRead.GetMemory
        (FuzzStateHintRead byteOps sampleConsts [1] sampleState 0x1003 1000).1.Memory
        (FuzzStateHintRead byteOps sampleConsts [1] sampleState 0x1003 1000).1.PC
          = syscallInsn
    ∧ sampleState.Step + 1 < 2 ^ 64
    ∧ ∃ post : State (List (Nat × Nat)),
        goVmStep byteRead sampleConsts
          (FuzzStateHintRead byteOps sampleConsts [1] sampleState 0x1003 1000).1 = some post
        ∧ post.Registers 2 = 1000 ∧ post.Registers 7 = 0 :=
  ⟨rfl, by decide, by decide,
    (hint_read_step byteOps byteRead sampleConsts [1] sampleState 0x1003 1000 rfl
      (by decide) (by decide)).imp fun _ h => ⟨h.1, h.2.2.2.2.1, h.2.2.2.2.2.1⟩⟩

/-- C7. Hint write: for every address `a`, count `n` and byte sequence `bytes`
of length `n` held by the memory at `a` when the step runs, from the pre-state
`FuzzStateHintWrite` sets up (not exited, the syscall instruction at pc), the
step on the hint-write descriptor returns register 2 = `n`, the full requested
count, and register 7 = 0, sets lastHint to `bytes`, and leaves the memory
root, preimage key and preimage offset equal to their pre-step values. The
post-state passes `Validate` against the expected state of the test with the
flag of the test, which leaves lastHint out of the comparison. -/
theorem hint_write_step {Mem : Type} (ops : MemOps Mem) (rd : MemRead Mem) (c : Consts)
    (preimageKey : Hash) (rnd : State Mem) (a n : Nat) (randBytes bytes : List Nat)
    (mem : Mem) (hrun : rnd.Exited = false) (hsys : c.SysRead ≠ c.SysWrite)
    (hmem : ops.SetMemoryRange rnd.Memory a randBytes = some mem)
    (hfetch : rd.GetMemory (ops.SetMemory mem rnd.PC syscallInsn) rnd.PC = syscallInsn)
    (hbytes : rd.ReadMemoryRange (ops.SetMemory mem rnd.PC syscallInsn) a n = bytes)
    (hlen : bytes.length = n) :
    ∃ (st : State Mem) (e : ExpectedState) (post : State Mem),
      FuzzStateHintWrite ops c preimageKey rnd a n randBytes = some (st, e)
      ∧ goVmStep rd c st = some post
      ∧ st.Registers 4 = c.FdHintWrite
      ∧ st.Registers 5 = a
      ∧ st.Registers 6 = bytes.length
      ∧ rd.ReadMemoryRange st.Memory a n = bytes
      ∧ post.Registers 2 = n
      ∧ post.Registers 7 = 0
      ∧ post.LastHint = some bytes
      ∧ ops.MerkleRoot post.Memory = ops.MerkleRoot st.Memory
      ∧ post.PreimageKey = st.PreimageKey
      ∧ post.PreimageOffset = st.PreimageOffset
      ∧ e.Validate ops post hintWriteFlags = true := by
  have hmem2 : ops.SetMemoryRange
      ((((WithPreimageKey preimageKey rnd).setRegister 2 c.SysWrite).setRegister 4
        c.FdHintWrite).setRegister 5 a |>.setRegister 6 n).Memory a randBytes = some mem :=
    hmem
  simp only [FuzzStateHintWrite, hmem2]
  refine ⟨_, _, _, rfl,
    goVmStep_hint_write rd c _ hrun hfetch hsys
      (by simp [State.setRegister, State.setMemory, WithPreimageKey])
      (by simp [State.setRegister, State.setMemory, WithPreimageKey]),
    ?_, ?_, ?_, hbytes, ?_, ?_, ?_, rfl, rfl, rfl, ?_⟩
  · simp [State.setRegister, State.setMemory, WithPreimageKey]
  · simp [State.setRegister, State.setMemory, WithPreimageKey]
  · simp [State.setRegister, State.setMemory, WithPreimageKey, hlen]
  · simp [syscallReturn, State.setRegister, State.setMemory, WithPreimageKey]
  · simp [syscallReturn]
  · simp only [syscallReturn, State.setRegister, State.setMemory, WithPreimageKey]
    simp [hbytes]
  · rw [validate_hintWriteFlags_iff]
    refine ⟨rfl, rfl, rfl, rfl, rfl, rfl, rfl, rfl, rfl, rfl, ?_, rfl⟩
    simp [syscallReturn, ExpectedState.setRegister, CreateExpectedState, State.setRegister,
      State.setMemory, WithPreimageKey]

/-- Instance of `hint_write_step`: on the byte-addressed sample memory, the two
bytes 170, 187 written at 0x2000 become lastHint and the step returns 2. -/
theorem hint_write_step_witness :
    (sampleState.Exited = false ∧ sampleConsts.SysRead ≠ sampleConsts.SysWrite)
    ∧ byteRead.ReadMemoryRange
        (byteOps.SetMemory [(0x2000, 170), (0x2001, 187)] sampleState.PC syscallInsn)
        0x2000 2 = [170, 187]
    ∧ ∃ (st : State (List (Nat × Nat))) (e : ExpectedState) (post : State (List (Nat × Nat))),
        FuzzStateHintWrite byteOps sampleConsts [1] sampleState 0x2000 2 [170, 187]
          = some (st, e)
        ∧ goVmStep byteRead sampleConsts st = some post
        ∧ post.Registers 2 = 2
        ∧ post.LastHint = some [170, 187] :=
  ⟨⟨rfl, by decide⟩, by decide,
    (hint_write_step byteOps byteRead sampleConsts [1] sampleState 0x2000 2 [170, 187]
      [170, 187] [(0x2000, 170), (0x2001, 187)] rfl (by decide) (by decide) (by decide)
      (by decide) rfl).imp fun _ h => h.imp fun _ hp => hp.imp fun _ hq =>
        ⟨hq.1, hq.2.1, hq.2.2.2.2.2.2.1, hq.2.2.2.2.2.2.2.2.1⟩⟩

end Cannon
